import Mathlib

/-!
Core::Changelogs (Telegram/SourceFiles/core/changelogs.cpp)

A shallow embedding of the "what's new" notifier of Kotatogram Desktop and
the properties of it that are checked against the code.

* `QString` is a sequence of characters; the Qt member functions used by the
  file (`number`, `trimmed`, `startsWith`, `mid`, `replace`) are given with
  their documented Qt behaviour.
* C++ `int` is `Int`; `/` and `%` are the truncating `Int.tdiv` / `Int.tmod`
  (no operation of the file can overflow).
* Constants and collaborators that live in other files (build constants,
  language ids, translated templates, the entity parser) are fields of `Env`.
* The object `Changelogs` is a record of its members; every member function is
  a function from the record to the record.  The calls the object makes on its
  session (`serviceNotification`, `applyUpdates`, `requestChangelog`) and on
  `LOG` are recorded, in call order, in the lists of `Session`.
-/

namespace Core

/-! Strings -/

/-- A `QString`: the sequence of its characters. -/
abbrev QString := List Char

namespace QString

/-- Qt `QString::number(int)`: decimal digits, with a leading `-` for a negative
number. -/
def number (n : Int) : QString :=
  match n with
  | Int.ofNat m => Nat.toDigits 10 m
  | Int.negSucc m => '-' :: Nat.toDigits 10 (m + 1)

/-- Qt `QChar::isSpace`: the ASCII white space `\t \n \v \f \r` and space, U+0085,
U+00A0 and the Unicode separator categories Zs, Zl, Zp. -/
def isSpace (c : Char) : Bool :=
  let u := c.toNat
  u == 0x20 || (0x09 ≤ u && u ≤ 0x0d) || u == 0x85 || u == 0xa0 || u == 0x1680
    || (0x2000 ≤ u && u ≤ 0x200a) || u == 0x2028 || u == 0x2029 || u == 0x202f
    || u == 0x205f || u == 0x3000

/-- Qt `QString::trimmed()`: white space removed from the start and the end. -/
def trimmed (s : QString) : QString :=
  ((s.dropWhile isSpace).reverse.dropWhile isSpace).reverse

/-- Qt `QString::startsWith(prefix)`, case sensitive. -/
def startsWith (s pre : QString) : Bool :=
  pre.isPrefixOf s

/-- Qt `QString::mid(position)`: the characters from `position` to the end. -/
def mid (s : QString) (position : Nat) : QString :=
  s.drop position

/-- Qt `QString::isEmpty()`. -/
def isEmpty (s : QString) : Bool :=
  List.isEmpty s

/-- The scan of `QString::replace(before, after)`: `skip` counts the
characters of a match of `before` that are still to be stepped over. -/
def replaceScan (before after : QString) : Nat → QString → QString
  | 0, [] => if List.isEmpty before then after else []
  | _ + 1, [] => []
  | skip + 1, _ :: cs => replaceScan before after skip cs
  | 0, c :: cs =>
    if before.isPrefixOf (c :: cs) then
      after ++ (if List.isEmpty before then c :: replaceScan before after 0 cs
        else replaceScan before after (before.length - 1) cs)
    else c :: replaceScan before after 0 cs

/-- Qt `QString::replace(before, after)`: every occurrence of `before`, found
from left to right without overlap, is replaced by `after`. -/
def replace (s before after : QString) : QString :=
  replaceScan before after 0 s

/-- The lines of a text: the pieces between its newline characters, as
`QString::split('\n')` gives them. -/
def lines : QString → List QString
  | [] => [[]]
  | c :: cs =>
    if c = '\n' then [] :: lines cs
    else (c :: (lines cs).headD []) :: (lines cs).tail

/-- A line whose marker is rewritten: a dash and a space at its start become
the bullet U+2022 and a space, any other line is kept. -/
def bulletLine (l : QString) : QString :=
  if "- ".toList.isPrefixOf l then "• ".toList ++ l.drop 2 else l

end QString

/-! Version formatting -/

/-- The function `QString FormatVersionDisplay(int version)`. -/
def FormatVersionDisplay (version : Int) : QString :=
  QString.number (version.tdiv 1000000)
    ++ '.' :: QString.number ((version.tmod 1000000).tdiv 1000)
    ++ (if version.tmod 1000 ≠ 0
        then '.' :: QString.number (version.tmod 1000)
        else [])

/-- The function `QString FormatVersionPrecise(int version)`. -/
def FormatVersionPrecise (version : Int) : QString :=
  QString.number (version.tdiv 1000000)
    ++ '.' :: QString.number ((version.tmod 1000000).tdiv 1000)
    ++ '.' :: QString.number (version.tmod 1000)

/-! The collaborators -/

/-- An entity (a link) found in a text by the entity parser. -/
structure EntityInText where
  offset : Nat
  length : Nat
  deriving DecidableEq

/-- The type `TextWithEntities`: a text and the entities parsed in it. -/
structure TextWithEntities where
  text : QString
  entities : List EntityInText
  deriving DecidableEq

/-- One element of the update list of an `updates` / `updatesCombined`
result. -/
structure MTPUpdate where
  id : Nat
  deriving DecidableEq

/-- The type `MTPUpdates`: the seven constructors of the server result, named
after their `mtpc_` type ids; the two list shapes carry `vupdates().v`. -/
inductive MTPUpdates where
  | updatesTooLong
  | updateShortMessage
  | updateShortChatMessage
  | updateShort
  | updatesCombined (vupdates : List MTPUpdate)
  | updates (vupdates : List MTPUpdate)
  | updateShortSentMessage
  deriving DecidableEq

/-- The constants and collaborators of other files that the code reads:
build constants (`kotato_version.h`, `cAlphaVersion()`), the language ids,
the translated templates as functions of their substitution slots, the
changelog link and `TextUtilities::ParseEntities(_, TextParseLinks)`. -/
structure Env where
  AppKotatoVersion : Int
  AppKotatoBetaVersion : Bool
  AppKotatoVersionStr : QString
  AppVersionStr : QString
  cAlphaVersion : Nat
  baseId : QString
  langId : QString
  ktg_new_version : QString → QString → QString → QString
  lng_new_version_wrap : QString → QString → QString → QString
  lng_new_version_minor : QString
  changelogLink : QString
  ParseEntities : TextWithEntities → TextWithEntities

/-- What the object does to the world around it, as the lists of the calls it
made, oldest first: `_session->data().serviceNotification(..)`,
`_session->api().applyUpdates(..)`, `_session->api().requestChangelog(..)`
(the version token of each request) and the lines written with `LOG`. -/
structure Session where
  serviceNotifications : List TextWithEntities
  appliedUpdates : List MTPUpdates
  changelogRequests : List QString
  log : List QString
  deriving DecidableEq

/-- The members of `class Changelogs`.  `_chatsSubscription` is true while the
subscription held by the `rpl::lifetime` is alive. -/
structure Changelogs where
  _session : Session
  _oldVersion : Int
  _oldKotatoVersion : Int
  _chatsSubscription : Bool
  _addedSomeLocal : Bool
  deriving DecidableEq

/-- The stored versions of the local storage (`Core::App().domain().local()`
and `Local::oldKotatoVersion()`). -/
structure LocalStorage where
  oldVersion : Int
  oldKotatoVersion : Int
  deriving DecidableEq

/-- Modelled from the spec: `Storage::Domain::clearOldVersion` is defined in
`storage/storage_domain.cpp`, which is not among the sources; the spec calls
it `ClearPreviousAppVersion()`.  The stored previous app version becomes `0`,
the value that stands for "no previous version". -/
def LocalStorage.clearOldVersion (l : LocalStorage) : LocalStorage :=
  { l with oldVersion := 0 }

/-! The static changelog table -/

/-- Insertion into a `std::map<int, const char*>` kept as its ascending list
of entries; an entry whose key is present already is not inserted. -/
def stdMapInsert (key : Int) (value : QString) :
    List (Int × QString) → List (Int × QString)
  | [] => [(key, value)]
  | (k, v) :: rest =>
    if key < k then (key, value) :: (k, v) :: rest
    else if key = k then (k, v) :: rest
    else (k, v) :: stdMapInsert key value rest

/-- A `std::map` built from an initializer list: the elements are inserted
one after the other. -/
def stdMap (init : List (Int × QString)) : List (Int × QString) :=
  init.foldl (fun m e => stdMapInsert e.1 e.2 m) []

/-- The table `BetaLogs()`, in the iteration order of the `std::map`.  A
`const char*` is given as the text `QString::fromUtf8` decodes it to. -/
def BetaLogs : List (Int × QString) :=
  stdMap [
    (3002006,
      ("- Try out the new audio player with playlist shuffle and repeat.\n"
      ++ "- Give a custom name to your desktop session "
      ++ "to distinguish it in the sessions list.\n").toList),
    (3002007,
      ("- Active sessions list redesign.\n"
      ++ "- Fix disappearing emoji selector button.\n"
      ++ "- Fix a crash in archived stickers loading.\n"
      ++ "- Fix a crash in calls to old Telegram versions.\n").toList),
    (3003001,
      ("- Switch between contacts list sorting modes.\n"
      ++ "- Sort contacts list by last seen time by default.\n"
      ++ "- Fix disappearing Send As Channel button after message editing.\n"
      ++ "- Fix file upload cancelling.\n"
      ++ "- Fix crash in video capture on macOS.\n"
      ++ "- Fix labels in the About box.\n"
      ++ "- Use Qt 6.2.2 for macOS and Linux builds.\n"
      ++ "- Allow installing x64 Windows version on Windows ARM.\n").toList),
    (3003002,
      ("- Select text when typing and choose 'Formatting > Spoiler' in the "
      ++ "context menu to hide some or all of the contents of a message.\n"
      ++ "- Click on the spoiler in chat to reveal its hidden text.\n"
      ++ "- Spoiler formatting hides text in chat, "
      ++ "as well as in the chat list and notifications.\n").toList)]

/-! The member functions -/

namespace Changelogs

/-- The call `_session->data().serviceNotification(textWithEntities)`. -/
def serviceNotification (self : Changelogs) (t : TextWithEntities) : Changelogs :=
  { self with _session :=
      { self._session with
        serviceNotifications := self._session.serviceNotifications ++ [t] } }

/-- The call `_session->api().applyUpdates(result)`. -/
def applyUpdates (self : Changelogs) (result : MTPUpdates) : Changelogs :=
  { self with _session :=
      { self._session with
        appliedUpdates := self._session.appliedUpdates ++ [result] } }

/-- The call `_session->api().requestChangelog(version, callback)`. -/
def requestChangelog (self : Changelogs) (version : QString) : Changelogs :=
  { self with _session :=
      { self._session with
        changelogRequests := self._session.changelogRequests ++ [version] } }

/-- The statement `LOG((line))`. -/
def LOG (self : Changelogs) (line : QString) : Changelogs :=
  { self with _session := { self._session with log := self._session.log ++ [line] } }

/-- The member `void Changelogs::addLocalLog(const QString &text)`. -/
def addLocalLog (env : Env) (self : Changelogs) (text : QString) : Changelogs :=
  let textWithEntities := env.ParseEntities { text := text, entities := [] }
  { self.serviceNotification textWithEntities with _addedSomeLocal := true }

/-- The constant `simple` of `addBetaLog`: a newline, a dash, a space. -/
def simple : QString := "\n- ".toList

/-- The constant `separator` of `addBetaLog`: a newline, the bullet U+2022, a
space. -/
def separator : QString := "\n• ".toList

/-- The lambda `text` of `addBetaLog`: the trimmed changes with the bullet
markers rewritten. -/
def betaText (changes : QString) : QString :=
  let result := QString.trimmed changes
  let result :=
    if QString.startsWith result (QString.mid simple 1) then
      QString.mid separator 1 ++ QString.mid result (simple.length - 1)
    else result
  QString.replace result simple separator

/-- The value `log` of `addBetaLog`: the header with `%1` filled in, then the
text. -/
def betaLog (changeVersion : Int) (changes : QString) : QString :=
  let version := FormatVersionDisplay changeVersion
  "New in version ".toList ++ version ++ " beta:\n\n".toList ++ betaText changes

/-- The member `void Changelogs::addBetaLog(int changeVersion, const char
*changes)`. -/
def addBetaLog (env : Env) (self : Changelogs) (changeVersion : Int)
    (changes : QString) : Changelogs :=
  if self._oldVersion ≥ changeVersion then self
  else addLocalLog env self (betaLog changeVersion changes)

/-- The member `void Changelogs::addBetaLogs()`: the loop over the table. -/
def addBetaLogs (env : Env) (self : Changelogs) : Changelogs :=
  BetaLogs.foldl (fun self e => addBetaLog env self e.1 e.2) self

/-- The member `void Changelogs::addLocalLogs()`. -/
def addLocalLogs (env : Env) (self : Changelogs) : Changelogs :=
  let self :=
    if env.AppKotatoBetaVersion || env.cAlphaVersion != 0 then addBetaLogs env self
    else self
  if !self._addedSomeLocal then
    let text := env.lng_new_version_wrap env.AppVersionStr
      env.lng_new_version_minor env.changelogLink
    addLocalLog env self (QString.trimmed text)
  else self

/-- The loop of `addKotatoLogs` over `{ "ru", "uk", "be" }`: the value of
`channelLink` when the loop is left. -/
def channelLinkLoop (baseLang currentLang : QString) : List QString → QString
  | [] => []
  | language :: rest =>
    if QString.startsWith baseLang language || currentLang == language then
      "https://t.me/kotatogram_ru".toList
    else channelLinkLoop baseLang currentLang rest

/-- The value of `channelLink` that `addKotatoLogs` passes to the template. -/
def channelLink (baseLang currentLang : QString) : QString :=
  let link := channelLinkLoop baseLang currentLang
    ["ru".toList, "uk".toList, "be".toList]
  if QString.isEmpty link then "https://t.me/kotatogram".toList else link

/-- The member `void Changelogs::addKotatoLogs()`. -/
def addKotatoLogs (env : Env) (self : Changelogs) : Changelogs :=
  let self := { self with _chatsSubscription := false }
  if self._addedSomeLocal then self
  else
    let text := env.ktg_new_version env.AppKotatoVersionStr env.AppVersionStr
      (channelLink env.baseId env.langId)
    addLocalLog env self (QString.trimmed text)

/-- The `switch` of the callback of `requestCloudLogs`: the object after the
`LOG` of the bad shapes, and the value of `resultEmpty`. -/
def classify (self : Changelogs) (result : MTPUpdates) : Changelogs × Bool :=
  match result with
  | .updateShortMessage => (self, false)
  | .updateShortChatMessage => (self, false)
  | .updateShort => (self, false)
  | .updatesCombined vupdates => (self, vupdates.isEmpty)
  | .updates vupdates => (self, vupdates.isEmpty)
  | .updatesTooLong =>
    (self.LOG "API Error: Bad updates type in app changelog.".toList, true)
  | .updateShortSentMessage =>
    (self.LOG "API Error: Bad updates type in app changelog.".toList, true)

/-- The lambda `callback` of `requestCloudLogs`, run on a live object. -/
def callback (env : Env) (self : Changelogs) (result : MTPUpdates) : Changelogs :=
  let self := self.applyUpdates result
  let r := classify self result
  if r.2 then addLocalLogs env r.1 else r.1

/-- The member `void Changelogs::requestCloudLogs()`: the subscription is
destroyed and the request is sent; the callback runs when the reply comes. -/
def requestCloudLogs (self : Changelogs) : Changelogs :=
  let self := { self with _chatsSubscription := false }
  self.requestChangelog (FormatVersionPrecise self._oldVersion)

/-- Modelled from the spec: the member `_addedSomeLocal` gets its first value
in `core/changelogs.h`, which is not among the sources; the spec describes it
as a one-shot flag that the sink sets, so an object starts with it clear. -/
def addedSomeLocalInit : Bool := false

/-- The constructor `Changelogs::Changelogs(session, oldVersion,
oldKotatoVersion)`: the members are set, the previous Kotatogram version is
logged and the chats-list subscription is started. -/
def ctor (session : Session) (oldVersion oldKotatoVersion : Int) : Changelogs :=
  let self : Changelogs :=
    { _session := session
      _oldVersion := oldVersion
      _oldKotatoVersion := oldKotatoVersion
      _chatsSubscription := false
      _addedSomeLocal := addedSomeLocalInit }
  let self := self.LOG
    ("Previous Kotatogram version: ".toList ++ QString.number self._oldKotatoVersion)
  { self with _chatsSubscription := true }

/-- The handler of the subscription of the constructor for one event of
`chatsListChanges()`: events are delivered while the subscription is alive,
the filter keeps those without a folder, and the handler is `addKotatoLogs`. -/
def chatsListChanged (env : Env) (self : Changelogs) (folder : Option Nat) :
    Changelogs :=
  if self._chatsSubscription && folder.isNone then addKotatoLogs env self
  else self

/-- The static member `Changelogs::Create(session)`: the storage after the
call and the object returned, `none` for `nullptr`. -/
def Create (env : Env) (storage : LocalStorage) (session : Session) :
    LocalStorage × Option Changelogs :=
  let oldVersion := storage.oldVersion
  let oldKotatoVersion := storage.oldKotatoVersion
  let storage := storage.clearOldVersion
  (storage,
    if oldVersion ≠ 0 ∧ oldKotatoVersion < env.AppKotatoVersion then
      some (ctor session oldVersion oldKotatoVersion)
    else none)

end Changelogs


/-! What is sent to the sink -/

namespace Changelogs

/-- The service notifications an object has sent so far. -/
abbrev sent (self : Changelogs) : List TextWithEntities :=
  self._session.serviceNotifications

/-- The message that `addBetaLog` hands to the sink for one table entry. -/
def betaMessage (env : Env) (e : Int × QString) : TextWithEntities :=
  env.ParseEntities
    { text := "New in version ".toList ++ FormatVersionDisplay e.1
        ++ " beta:\n\n".toList ++ betaText e.2
      entities := [] }

/-- The messages `addBetaLogs` sends for a table and an old version: one per
entry with a key above the old version, in table order. -/
def betaMessages (env : Env) (oldVersion : Int) (table : List (Int × QString)) :
    List TextWithEntities :=
  (table.filter (fun e => decide (oldVersion < e.1))).map (betaMessage env)

/-- The generic "new version" message of `addLocalLogs`. -/
def genericMessage (env : Env) : TextWithEntities :=
  env.ParseEntities
    { text := QString.trimmed
        (env.lng_new_version_wrap env.AppVersionStr env.lng_new_version_minor
          env.changelogLink)
      entities := [] }

/-- The community-channel notice of `addKotatoLogs`. -/
def kotatoMessage (env : Env) : TextWithEntities :=
  env.ParseEntities
    { text := QString.trimmed
        (env.ktg_new_version env.AppKotatoVersionStr env.AppVersionStr
          (channelLink env.baseId env.langId))
      entities := [] }

/-- The messages the beta step of `addLocalLogs` sends: those of `addBetaLogs`
in a beta or alpha build, none in another build. -/
def betaPart (env : Env) (oldVersion : Int) : List TextWithEntities :=
  if env.AppKotatoBetaVersion || env.cAlphaVersion != 0 then
    betaMessages env oldVersion BetaLogs
  else []

end Changelogs

/-! Sequences of operations -/

/-- One operation on a notifier: a call of one of its member functions, the
arrival of the reply to a changelog request, or an event of the chats list. -/
inductive Op where
  | addKotatoLogs
  | requestCloudLogs
  | callback (result : MTPUpdates)
  | addLocalLogs
  | addBetaLogs
  | addLocalLog (text : QString)
  | chatsListChanged (folder : Option Nat)
  deriving DecidableEq

/-- The object after one operation. -/
def Op.run (env : Env) (self : Changelogs) : Op → Changelogs
  | .addKotatoLogs => Changelogs.addKotatoLogs env self
  | .requestCloudLogs => Changelogs.requestCloudLogs self
  | .callback result => Changelogs.callback env self result
  | .addLocalLogs => Changelogs.addLocalLogs env self
  | .addBetaLogs => Changelogs.addBetaLogs env self
  | .addLocalLog text => Changelogs.addLocalLog env self text
  | .chatsListChanged folder => Changelogs.chatsListChanged env self folder

/-- The object after a sequence of operations. -/
def runOps (env : Env) (self : Changelogs) (ops : List Op) : Changelogs :=
  ops.foldl (Op.run env) self

/-- Whether an operation runs `addKotatoLogs`: the direct call, and the chats
list event that the subscription hands to it. -/
def Op.runsKotato (self : Changelogs) : Op → Bool
  | .addKotatoLogs => true
  | .chatsListChanged folder => self._chatsSubscription && folder.isNone
  | _ => false

/-- The number of messages sent by the runs of `addKotatoLogs` in a sequence
of operations. -/
def kotatoNotices (env : Env) : Changelogs → List Op → Nat
  | _, [] => 0
  | self, op :: ops =>
    (if op.runsKotato self then
        (op.run env self)._session.serviceNotifications.length
          - self._session.serviceNotifications.length
      else 0)
      + kotatoNotices env (op.run env self) ops

/-! A concrete build and notifier for the examples -/

/-- A beta build with English language ids, templates that join their slots
with blanks, and an entity parser that finds no entity. -/
def demoEnv : Env where
  AppKotatoVersion := 1004009
  AppKotatoBetaVersion := true
  AppKotatoVersionStr := "1.4.9".toList
  AppVersionStr := "3.3.2".toList
  cAlphaVersion := 0
  baseId := []
  langId := "en".toList
  ktg_new_version := fun version td_version link =>
    version ++ ' ' :: td_version ++ ' ' :: link
  lng_new_version_wrap := fun version changes link =>
    version ++ ' ' :: changes ++ ' ' :: link
  lng_new_version_minor := "Bug fixes".toList
  changelogLink := "https://kotatogram.github.io/changelog".toList
  ParseEntities := fun t => t

/-- A session on which nothing was called yet. -/
def demoSession : Session where
  serviceNotifications := []
  appliedUpdates := []
  changelogRequests := []
  log := []

/-- A notifier made for the old version 3002005 whose chats-list event has
arrived: `addKotatoLogs` has sent its notice and set the latch. -/
def demoLatched : Changelogs :=
  Changelogs.chatsListChanged demoEnv (Changelogs.ctor demoSession 3002005 1004008) none

/-- The changelog text of the first entry of the table, that of 3002006. -/
def demoChanges : QString :=
  (BetaLogs.headD (0, [])).2

/-- A build that is neither beta nor alpha, otherwise as `demoEnv`. -/
def demoStableEnv : Env :=
  { demoEnv with AppKotatoBetaVersion := false }

/-! Reference functions for the statements -/

namespace QString

/-- The pieces of a text between the occurrences of a separator character,
as `QString::split(sep)` gives them. -/
def split (sep : Char) : QString → List QString
  | [] => [[]]
  | c :: cs =>
    if c = sep then [] :: split sep cs
    else (c :: (split sep cs).headD []) :: (split sep cs).tail

/-- The lines of a text put together again, a newline between two lines, as
`QStringList::join('\n')` does. -/
def joinLines : List QString → QString
  | [] => []
  | l :: ls => l ++ (ls.map (fun x => '\n' :: x)).flatten

/-- The number a run of decimal digits stands for. -/
def decimalValue (s : QString) : Nat :=
  s.foldl (fun acc c => 10 * acc + (c.toNat - '0'.toNat)) 0

end QString

/-- The line-wise reference of the bullet normalisation, following the words
of the specification: in a text, every dash and space standing at the start
of a line is replaced by the bullet U+2022 and a space, and nothing else is
changed. -/
def bulletReference (text : QString) : QString :=
  QString.joinLines ((QString.lines text).map QString.bulletLine)

/-- A version token read back: the text is cut at its dots, and three
segments `x.y.z` of decimal digits give `x*1000000 + y*1000 + z`. -/
def readVersionPrecise (token : QString) : Option Int :=
  match QString.split '.' token with
  | [x, y, z] =>
    some ((x.decimalValue * 1000000 + y.decimalValue * 1000 + z.decimalValue : Nat) : Int)
  | _ => none

/-- Whether an operation runs the handler of the chats-list subscription: an
event without a folder, delivered while the subscription is alive. -/
def Op.runsHandler (self : Changelogs) : Op → Bool
  | .chatsListChanged folder => self._chatsSubscription && folder.isNone
  | _ => false

/-- The number of runs of the subscription handler in a sequence of
operations. -/
def handlerRuns (env : Env) : Changelogs → List Op → Nat
  | _, [] => 0
  | self, op :: ops =>
    (if op.runsHandler self then 1 else 0) + handlerRuns env (op.run env self) ops

/-! Decimal rendering -/

theorem digitChar_ne_dot (d : Nat) (h : d < 10) : Nat.digitChar d ≠ '.' := by
  interval_cases d <;> decide

theorem toDigitsCore_no_dot (fuel : Nat) :
    ∀ (n : Nat) (acc : List Char), '.' ∉ acc → '.' ∉ Nat.toDigitsCore 10 fuel n acc := by
  induction fuel with
  | zero => intro n acc h; simpa [Nat.toDigitsCore] using h
  | succ fuel ih =>
    intro n acc h
    have hd : '.' ∉ Nat.digitChar (n % 10) :: acc := by
      intro hmem
      rcases List.mem_cons.mp hmem with h1 | h1
      · exact digitChar_ne_dot (n % 10) (Nat.mod_lt _ (by decide)) h1.symm
      · exact h h1
    unfold Nat.toDigitsCore
    by_cases hz : n / 10 = 0
    · simpa [hz] using hd
    · simpa [hz] using ih (n / 10) _ hd

theorem number_natCast (n : Nat) : QString.number (n : Int) = (Nat.repr n).toList := rfl

theorem number_natCast_no_dot (n : Nat) : '.' ∉ QString.number (n : Int) :=
  toDigitsCore_no_dot _ _ _ (List.not_mem_nil _)

theorem count_dot_number (n : Nat) : List.count '.' (QString.number (n : Int)) = 0 :=
  List.count_eq_zero.mpr (number_natCast_no_dot n)

theorem version_segments (major minor patch : Nat) (hminor : minor < 1000)
    (hpatch : patch < 1000) :
    Int.tdiv ((major * 1000000 + minor * 1000 + patch : Nat) : Int) 1000000 = (major : Int)
    ∧ Int.tdiv (Int.tmod ((major * 1000000 + minor * 1000 + patch : Nat) : Int) 1000000) 1000
        = (minor : Int)
    ∧ Int.tmod ((major * 1000000 + minor * 1000 + patch : Nat) : Int) 1000 = (patch : Int) := by
  have h0 : (0 : Int) ≤ ((major * 1000000 + minor * 1000 + patch : Nat) : Int) :=
    Int.ofNat_nonneg _
  have hm : (0 : Int) ≤ Int.tmod ((major * 1000000 + minor * 1000 + patch : Nat) : Int) 1000000 := by
    rw [Int.tmod_eq_emod h0 (by decide)]; omega
  refine ⟨?_, ?_, ?_⟩
  · rw [Int.tdiv_eq_ediv h0 (by decide)]; omega
  · rw [Int.tdiv_eq_ediv hm (by decide), Int.tmod_eq_emod h0 (by decide)]; omega
  · rw [Int.tmod_eq_emod h0 (by decide)]; omega

/-! Lines and bullet markers -/

namespace QString

theorem lines_eq_cons (s : QString) : lines s = (lines s).headD [] :: (lines s).tail := by
  cases s with
  | nil => rfl
  | cons c cs => by_cases h : c = '\n' <;> simp [lines, h]

theorem lines_newline (cs : QString) : lines ('\n' :: cs) = [] :: lines cs := by
  simp [lines]

theorem lines_cons (c : Char) (cs : QString) (h : c ≠ '\n') :
    lines (c :: cs) = (c :: (lines cs).headD []) :: (lines cs).tail := by
  simp [lines, h]

/-- The first line of a text is the start of the text. -/
theorem headLine_prefix (s : QString) : (lines s).headD [] <+: s := by
  induction s with
  | nil => simp [lines]
  | cons c cs ih =>
    by_cases h : c = '\n'
    · rw [h, lines_newline]; exact List.nil_prefix
    · rw [lines_cons c cs h]; exact (List.prefix_cons_inj c).mpr ih

theorem bulletLine_dash (l : QString) : bulletLine ('-' :: ' ' :: l) = '•' :: ' ' :: l := by
  have h : "- ".toList.isPrefixOf ('-' :: ' ' :: l) = true := by
    rw [List.isPrefixOf_iff_prefix]; exact ⟨l, rfl⟩
  unfold bulletLine
  rw [if_pos h]; rfl

theorem bulletLine_other (l : QString) (h : ¬ "- ".toList <+: l) : bulletLine l = l := by
  unfold bulletLine
  rw [if_neg]
  rw [List.isPrefixOf_iff_prefix]; exact h

end QString

namespace Changelogs

theorem simple_eq : simple = ['\n', '-', ' '] := rfl

theorem separator_eq : separator = ['\n', '•', ' '] := rfl

/-- The scan at a newline, dash, space: the three are replaced and the scan
goes on behind them. -/
theorem replaceScan_match (rest : QString) :
    QString.replaceScan simple separator 0 ('\n' :: '-' :: ' ' :: rest)
      = '\n' :: '•' :: ' ' :: QString.replaceScan simple separator 0 rest := by
  have h : simple.isPrefixOf ('\n' :: '-' :: ' ' :: rest) = true := by
    rw [List.isPrefixOf_iff_prefix]; exact ⟨rest, rfl⟩
  rw [QString.replaceScan, if_pos h]
  rfl

/-- The scan at a character where `simple` does not start: the character is
kept. -/
theorem replaceScan_other (c : Char) (cs : QString) (h : ¬ simple <+: c :: cs) :
    QString.replaceScan simple separator 0 (c :: cs)
      = c :: QString.replaceScan simple separator 0 cs := by
  rw [QString.replaceScan, if_neg]
  rw [List.isPrefixOf_iff_prefix]; exact h

/-- The lines of a text after the replacement of `simple` by `separator`: the
first line is kept and every later line has its marker rewritten. -/
theorem lines_replaceScan (n : Nat) :
    ∀ s : QString, s.length = n →
      QString.lines (QString.replaceScan simple separator 0 s)
        = (QString.lines s).headD [] :: (QString.lines s).tail.map QString.bulletLine := by
  induction n using Nat.strong_induction_on with
  | _ n ih =>
    intro s hn
    by_cases hm : simple <+: s
    · obtain ⟨rest, rfl⟩ := hm
      have hlen : rest.length < n := by
        rw [← hn]; simp [simple_eq]; omega
      have hrest := ih rest.length hlen rest rfl
      show QString.lines (QString.replaceScan simple separator 0 ('\n' :: '-' :: ' ' :: rest))
        = (QString.lines ('\n' :: '-' :: ' ' :: rest)).headD []
          :: (QString.lines ('\n' :: '-' :: ' ' :: rest)).tail.map QString.bulletLine
      rw [replaceScan_match, QString.lines_newline, QString.lines_newline,
        QString.lines_cons '•' _ (by decide), QString.lines_cons ' ' _ (by decide),
        QString.lines_cons '-' _ (by decide), QString.lines_cons ' ' _ (by decide), hrest]
      simp [QString.bulletLine_dash]
    · cases s with
      | nil => rfl
      | cons c cs =>
        have hlen : cs.length < n := by rw [← hn]; simp
        have hcs := ih cs.length hlen cs rfl
        rw [replaceScan_other c cs hm]
        by_cases hc : c = '\n'
        · subst hc
          have hdash : ¬ "- ".toList <+: (QString.lines cs).headD [] := by
            intro hp
            obtain ⟨u, hu⟩ := hp.trans (QString.headLine_prefix cs)
            exact hm ⟨u, by rw [← hu]; rfl⟩
          rw [QString.lines_newline, QString.lines_newline, hcs]
          conv_rhs => rw [QString.lines_eq_cons cs]
          rw [List.headD_cons, List.tail_cons, List.map_cons, QString.bulletLine_other _ hdash]
        · rw [QString.lines_cons c _ hc, QString.lines_cons c _ hc, hcs]
          simp

/-- The lines of the text that `addBetaLog` composes are the lines of the
trimmed changes, each with its marker rewritten. -/
theorem lines_betaText (changes : QString) :
    QString.lines (betaText changes)
      = (QString.lines (QString.trimmed changes)).map QString.bulletLine := by
  unfold betaText
  generalize QString.trimmed changes = t
  by_cases hp : "- ".toList <+: t
  · obtain ⟨u, rfl⟩ := hp
    have hs : QString.startsWith ("- ".toList ++ u) (QString.mid simple 1) = true := by
      unfold QString.startsWith
      rw [List.isPrefixOf_iff_prefix]; exact ⟨u, rfl⟩
    simp only [hs, if_true]
    show QString.lines (QString.replaceScan simple separator 0 ('•' :: ' ' :: u))
      = (QString.lines ('-' :: ' ' :: u)).map QString.bulletLine
    have h1 : ¬ simple <+: '•' :: ' ' :: u := by
      rintro ⟨v, hv⟩; simp [simple_eq] at hv
    have h2 : ¬ simple <+: ' ' :: u := by
      rintro ⟨v, hv⟩; simp [simple_eq] at hv
    rw [replaceScan_other _ _ h1, replaceScan_other _ _ h2,
      QString.lines_cons '•' _ (by decide), QString.lines_cons ' ' _ (by decide),
      QString.lines_cons '-' _ (by decide), QString.lines_cons ' ' _ (by decide),
      lines_replaceScan u.length u rfl]
    simp [QString.bulletLine_dash]
  · have hs : QString.startsWith t (QString.mid simple 1) = false := by
      unfold QString.startsWith
      rw [← Bool.not_eq_true, List.isPrefixOf_iff_prefix]; exact hp
    simp only [hs]
    show QString.lines (QString.replaceScan simple separator 0 t)
      = (QString.lines t).map QString.bulletLine
    have hdash : ¬ "- ".toList <+: (QString.lines t).headD [] :=
      fun h => hp (h.trans (QString.headLine_prefix t))
    rw [lines_replaceScan t.length t rfl]
    conv_rhs => rw [QString.lines_eq_cons t]
    rw [List.map_cons, QString.bulletLine_other _ hdash]

end Changelogs

/-! The sink and the latch: lemmas shared by the theorems -/

namespace Changelogs

theorem addLocalLog_sent (env : Env) (self : Changelogs) (text : QString) :
    (addLocalLog env self text).sent
      = self.sent ++ [env.ParseEntities { text := text, entities := [] }] := rfl

theorem addLocalLog_latch (env : Env) (self : Changelogs) (text : QString) :
    (addLocalLog env self text)._addedSomeLocal = true := rfl

theorem addLocalLog_oldVersion (env : Env) (self : Changelogs) (text : QString) :
    (addLocalLog env self text)._oldVersion = self._oldVersion := rfl

theorem addBetaLog_oldVersion (env : Env) (self : Changelogs) (v : Int) (c : QString) :
    (addBetaLog env self v c)._oldVersion = self._oldVersion := by
  unfold addBetaLog; split <;> rfl

theorem addBetaLog_sent (env : Env) (self : Changelogs) (e : Int × QString) :
    (addBetaLog env self e.1 e.2).sent
      = self.sent ++ betaMessages env self._oldVersion [e] := by
  unfold addBetaLog betaMessages
  by_cases h : self._oldVersion ≥ e.1
  · have h2 : ¬ self._oldVersion < e.1 := not_lt.mpr h
    simp [h, h2]
  · have h2 : self._oldVersion < e.1 := not_le.mp h
    simp [h, h2, addLocalLog_sent, betaMessage, betaLog]

theorem addBetaLog_latch (env : Env) (self : Changelogs) (e : Int × QString) :
    (addBetaLog env self e.1 e.2)._addedSomeLocal
      = (self._addedSomeLocal || decide (self._oldVersion < e.1)) := by
  unfold addBetaLog
  by_cases h : self._oldVersion ≥ e.1
  · have h2 : ¬ self._oldVersion < e.1 := not_lt.mpr h
    simp [h, h2]
  · have h2 : self._oldVersion < e.1 := not_le.mp h
    simp [h, h2, addLocalLog_latch]

/-- The loop of `addBetaLogs` over any table: what is sent, what becomes of
the latch, and that the old version is kept. -/
theorem betaLoop (env : Env) (table : List (Int × QString)) :
    ∀ self : Changelogs,
      (table.foldl (fun self e => addBetaLog env self e.1 e.2) self).sent
        = self.sent ++ betaMessages env self._oldVersion table
      ∧ (table.foldl (fun self e => addBetaLog env self e.1 e.2) self)._addedSomeLocal
        = (self._addedSomeLocal || table.any (fun e => decide (self._oldVersion < e.1)))
      ∧ (table.foldl (fun self e => addBetaLog env self e.1 e.2) self)._oldVersion
        = self._oldVersion := by
  induction table with
  | nil => intro self; simp [betaMessages]
  | cons e rest ih =>
    intro self
    obtain ⟨h1, h2, h3⟩ := ih (addBetaLog env self e.1 e.2)
    rw [List.foldl_cons, h1, h2, h3, addBetaLog_sent, addBetaLog_latch,
      addBetaLog_oldVersion]
    refine ⟨?_, ?_, rfl⟩
    · simp [betaMessages, List.filter_cons]
      split <;> simp
    · simp [Bool.or_assoc]

theorem addBetaLogs_sent (env : Env) (self : Changelogs) :
    (addBetaLogs env self).sent = self.sent ++ betaMessages env self._oldVersion BetaLogs :=
  (betaLoop env BetaLogs self).1

theorem addBetaLogs_latch (env : Env) (self : Changelogs) :
    (addBetaLogs env self)._addedSomeLocal
      = (self._addedSomeLocal || BetaLogs.any (fun e => decide (self._oldVersion < e.1))) :=
  (betaLoop env BetaLogs self).2.1

theorem addBetaLogs_oldVersion (env : Env) (self : Changelogs) :
    (addBetaLogs env self)._oldVersion = self._oldVersion :=
  (betaLoop env BetaLogs self).2.2

theorem addKotatoLogs_latched (env : Env) (self : Changelogs)
    (h : self._addedSomeLocal = true) :
    addKotatoLogs env self = { self with _chatsSubscription := false } := by
  simp [addKotatoLogs, h]

theorem addKotatoLogs_clear (env : Env) (self : Changelogs)
    (h : self._addedSomeLocal = false) :
    (addKotatoLogs env self).sent = self.sent ++ [kotatoMessage env]
    ∧ (addKotatoLogs env self)._addedSomeLocal = true := by
  simp [addKotatoLogs, h, addLocalLog_sent, addLocalLog_latch, kotatoMessage, sent]

/-- The beta step of `addLocalLogs`: what it sends and how it leaves the
latch. -/
theorem betaStep (env : Env) (self : Changelogs) :
    (if (env.AppKotatoBetaVersion || env.cAlphaVersion != 0) = true
        then addBetaLogs env self else self).sent
      = self.sent ++ betaPart env self._oldVersion
    ∧ (if (env.AppKotatoBetaVersion || env.cAlphaVersion != 0) = true
        then addBetaLogs env self else self)._addedSomeLocal
      = (self._addedSomeLocal
          || ((env.AppKotatoBetaVersion || env.cAlphaVersion != 0)
            && BetaLogs.any (fun e => decide (self._oldVersion < e.1))))
    ∧ (if (env.AppKotatoBetaVersion || env.cAlphaVersion != 0) = true
        then addBetaLogs env self else self)._oldVersion = self._oldVersion := by
  unfold betaPart
  by_cases hb : (env.AppKotatoBetaVersion || env.cAlphaVersion != 0) = true
  · rw [if_pos hb, if_pos hb, hb]
    exact ⟨addBetaLogs_sent env self, by simp [addBetaLogs_latch],
      addBetaLogs_oldVersion env self⟩
  · rw [if_neg hb, if_neg hb]
    simp only [Bool.not_eq_true] at hb
    rw [hb]
    simp

theorem addLocalLogs_eq (env : Env) (self : Changelogs) :
    addLocalLogs env self
      = if (if (env.AppKotatoBetaVersion || env.cAlphaVersion != 0) = true
              then addBetaLogs env self else self)._addedSomeLocal = true
        then (if (env.AppKotatoBetaVersion || env.cAlphaVersion != 0) = true
              then addBetaLogs env self else self)
        else addLocalLog env
          (if (env.AppKotatoBetaVersion || env.cAlphaVersion != 0) = true
              then addBetaLogs env self else self)
          (QString.trimmed (env.lng_new_version_wrap env.AppVersionStr
            env.lng_new_version_minor env.changelogLink)) := by
  simp only [addLocalLogs]
  generalize (if (env.AppKotatoBetaVersion || env.cAlphaVersion != 0) = true
    then addBetaLogs env self else self) = mid
  cases h : mid._addedSomeLocal <;> simp

theorem addLocalLogs_sent (env : Env) (self : Changelogs) :
    (addLocalLogs env self).sent
      = self.sent ++ betaPart env self._oldVersion
        ++ (if (self._addedSomeLocal
              || ((env.AppKotatoBetaVersion || env.cAlphaVersion != 0)
                && BetaLogs.any (fun e => decide (self._oldVersion < e.1)))) = true
            then [] else [genericMessage env]) := by
  obtain ⟨h1, h2, _⟩ := betaStep env self
  rw [addLocalLogs_eq, ← h2, ← h1]
  generalize (if (env.AppKotatoBetaVersion || env.cAlphaVersion != 0) = true
    then addBetaLogs env self else self) = mid
  by_cases h : mid._addedSomeLocal = true
  · rw [if_pos h, if_pos h]; simp
  · rw [if_neg h, if_neg h, addLocalLog_sent]; rfl

theorem addLocalLogs_latch (env : Env) (self : Changelogs) :
    (addLocalLogs env self)._addedSomeLocal = true := by
  rw [addLocalLogs_eq]
  generalize (if (env.AppKotatoBetaVersion || env.cAlphaVersion != 0) = true
    then addBetaLogs env self else self) = mid
  by_cases h : mid._addedSomeLocal = true
  · rw [if_pos h]; exact h
  · rw [if_neg h]; rfl

theorem addLocalLogs_oldVersion (env : Env) (self : Changelogs) :
    (addLocalLogs env self)._oldVersion = self._oldVersion := by
  obtain ⟨_, _, h3⟩ := betaStep env self
  rw [addLocalLogs_eq, ← h3]
  generalize (if (env.AppKotatoBetaVersion || env.cAlphaVersion != 0) = true
    then addBetaLogs env self else self) = mid
  by_cases h : mid._addedSomeLocal = true
  · rw [if_pos h]
  · rw [if_neg h]; rfl

theorem addKotatoLogs_sent (env : Env) (self : Changelogs) :
    (addKotatoLogs env self).sent
      = self.sent ++ (if self._addedSomeLocal = true then [] else [kotatoMessage env]) := by
  by_cases h : self._addedSomeLocal = true
  · rw [addKotatoLogs_latched env self h, if_pos h]; simp [sent]
  · rw [if_neg h]
    exact (addKotatoLogs_clear env self (by simpa using h)).1

theorem addKotatoLogs_latch (env : Env) (self : Changelogs) :
    (addKotatoLogs env self)._addedSomeLocal = true := by
  by_cases h : self._addedSomeLocal = true
  · rw [addKotatoLogs_latched env self h]; exact h
  · exact (addKotatoLogs_clear env self (by simpa using h)).2

theorem addKotatoLogs_oldVersion (env : Env) (self : Changelogs) :
    (addKotatoLogs env self)._oldVersion = self._oldVersion := by
  unfold addKotatoLogs
  by_cases h : self._addedSomeLocal = true
  · simp [h]
  · simp [h, addLocalLog_oldVersion]

theorem classify_latch (self : Changelogs) (result : MTPUpdates) :
    (classify self result).1._addedSomeLocal = self._addedSomeLocal := by
  cases result <;> rfl

theorem callback_latch (env : Env) (self : Changelogs) (result : MTPUpdates)
    (h : self._addedSomeLocal = true) :
    (callback env self result)._addedSomeLocal = true := by
  unfold callback
  by_cases hr : (classify (self.applyUpdates result) result).2 = true
  · simp only [hr, if_true]; exact addLocalLogs_latch env _
  · simp only [hr]
    rw [if_neg (by simp), classify_latch]; exact h

theorem betaMessages_isEmpty (env : Env) (v : Int) (table : List (Int × QString)) :
    (betaMessages env v table).isEmpty = !table.any (fun e => decide (v < e.1)) := by
  induction table with
  | nil => rfl
  | cons e rest ih =>
    unfold betaMessages at ih ⊢
    rw [List.filter_cons, List.any_cons]
    by_cases h : v < e.1
    · simp [h]
    · simp [h, ih]

/-- What `addLocalLogs` adds to the sink is not empty when the latch was
clear. -/
theorem addLocalLogs_added (env : Env) (self : Changelogs) :
    ∃ added, (addLocalLogs env self).sent = self.sent ++ added
      ∧ (addLocalLogs env self)._addedSomeLocal
        = (self._addedSomeLocal || !added.isEmpty) := by
  refine ⟨betaPart env self._oldVersion
      ++ (if (self._addedSomeLocal
            || ((env.AppKotatoBetaVersion || env.cAlphaVersion != 0)
              && BetaLogs.any (fun e => decide (self._oldVersion < e.1)))) = true
          then [] else [genericMessage env]), ?_, ?_⟩
  · rw [addLocalLogs_sent, List.append_assoc]
  · rw [addLocalLogs_latch]
    cases hl : self._addedSomeLocal
    · by_cases hc : ((env.AppKotatoBetaVersion || env.cAlphaVersion != 0)
          && BetaLogs.any (fun e => decide (self._oldVersion < e.1))) = true
      · have hb : (env.AppKotatoBetaVersion || env.cAlphaVersion != 0) = true :=
          (Bool.and_eq_true _ _ ▸ hc).1
        have ha : BetaLogs.any (fun e => decide (self._oldVersion < e.1)) = true :=
          (Bool.and_eq_true _ _ ▸ hc).2
        have he := betaMessages_isEmpty env self._oldVersion BetaLogs
        rw [ha] at he
        have hne : betaMessages env self._oldVersion BetaLogs ≠ [] := by
          intro h0
          rw [h0] at he
          exact Bool.noConfusion he
        simp only [betaPart, hb, if_true, Bool.false_or]
        cases hbm : betaMessages env self._oldVersion BetaLogs with
        | nil => exact absurd hbm hne
        | cons x xs => rfl
      · simp only [Bool.false_or, hc]
        simp
    · rfl

theorem addBetaLogs_added (env : Env) (self : Changelogs) :
    ∃ added, (addBetaLogs env self).sent = self.sent ++ added
      ∧ (addBetaLogs env self)._addedSomeLocal
        = (self._addedSomeLocal || !added.isEmpty) := by
  refine ⟨betaMessages env self._oldVersion BetaLogs, addBetaLogs_sent env self, ?_⟩
  rw [addBetaLogs_latch, betaMessages_isEmpty, Bool.not_not]

theorem addKotatoLogs_added (env : Env) (self : Changelogs) :
    ∃ added, (addKotatoLogs env self).sent = self.sent ++ added
      ∧ (addKotatoLogs env self)._addedSomeLocal
        = (self._addedSomeLocal || !added.isEmpty) := by
  refine ⟨if self._addedSomeLocal = true then [] else [kotatoMessage env],
    addKotatoLogs_sent env self, ?_⟩
  rw [addKotatoLogs_latch]
  cases self._addedSomeLocal <;> rfl

theorem classify_sent (self : Changelogs) (result : MTPUpdates) :
    (classify self result).1.sent = self.sent := by
  cases result <;> rfl

theorem callback_added (env : Env) (self : Changelogs) (result : MTPUpdates) :
    ∃ added, (callback env self result).sent = self.sent ++ added
      ∧ (callback env self result)._addedSomeLocal
        = (self._addedSomeLocal || !added.isEmpty) := by
  have hs : (classify (self.applyUpdates result) result).1.sent = self.sent :=
    classify_sent _ _
  have hl : (classify (self.applyUpdates result) result).1._addedSomeLocal
      = self._addedSomeLocal := classify_latch _ _
  unfold callback
  by_cases hr : (classify (self.applyUpdates result) result).2 = true
  · simp only [hr, if_true]
    obtain ⟨added, h1, h2⟩ :=
      addLocalLogs_added env (classify (self.applyUpdates result) result).1
    exact ⟨added, by rw [h1, hs], by rw [h2, hl]⟩
  · simp only [hr]
    refine ⟨[], ?_, ?_⟩
    · rw [if_neg (by simp), hs, List.append_nil]
    · rw [if_neg (by simp), hl]; simp

end Changelogs

/-- Every operation appends to the sink, and it leaves the latch set exactly
when the latch was set or it appended something. -/
theorem Op.run_added (env : Env) (self : Changelogs) (op : Op) :
    ∃ added, (op.run env self).sent = self.sent ++ added
      ∧ (op.run env self)._addedSomeLocal = (self._addedSomeLocal || !added.isEmpty) := by
  cases op with
  | addKotatoLogs => exact Changelogs.addKotatoLogs_added env self
  | requestCloudLogs => exact ⟨[], (List.append_nil _).symm, by simp [Op.run, Changelogs.requestCloudLogs, Changelogs.requestChangelog]⟩
  | callback result => exact Changelogs.callback_added env self result
  | addLocalLogs => exact Changelogs.addLocalLogs_added env self
  | addBetaLogs => exact Changelogs.addBetaLogs_added env self
  | addLocalLog text =>
    exact ⟨[_], Changelogs.addLocalLog_sent env self text, by
      show true = _
      cases self._addedSomeLocal <;> rfl⟩
  | chatsListChanged folder =>
    show ∃ added, (Changelogs.chatsListChanged env self folder).sent = self.sent ++ added
      ∧ (Changelogs.chatsListChanged env self folder)._addedSomeLocal
        = (self._addedSomeLocal || !added.isEmpty)
    unfold Changelogs.chatsListChanged
    split
    · exact Changelogs.addKotatoLogs_added env self
    · exact ⟨[], (List.append_nil _).symm, by simp⟩

/-- Over a sequence of operations the sink only grows, and the latch is set
at the end exactly when it was set at the start or something was sent. -/
theorem runOps_added (env : Env) (ops : List Op) :
    ∀ self : Changelogs, ∃ added, (runOps env self ops).sent = self.sent ++ added
      ∧ (runOps env self ops)._addedSomeLocal = (self._addedSomeLocal || !added.isEmpty) := by
  induction ops with
  | nil => intro self; exact ⟨[], (List.append_nil _).symm, by simp [runOps]⟩
  | cons op ops ih =>
    intro self
    obtain ⟨a1, h1, h2⟩ := Op.run_added env self op
    obtain ⟨a2, h3, h4⟩ := ih (op.run env self)
    refine ⟨a1 ++ a2, ?_, ?_⟩
    · show (runOps env (op.run env self) ops).sent = _
      rw [h3, h1, List.append_assoc]
    · show (runOps env (op.run env self) ops)._addedSomeLocal = _
      rw [h4, h2]
      cases self._addedSomeLocal <;> cases a1 <;> cases a2 <;> rfl

/-- No operation clears the latch. -/
theorem Op.run_latch (env : Env) (self : Changelogs) (op : Op)
    (h : self._addedSomeLocal = true) : (op.run env self)._addedSomeLocal = true := by
  cases op with
  | addKotatoLogs => exact Changelogs.addKotatoLogs_latch env self
  | requestCloudLogs => exact h
  | callback result => exact Changelogs.callback_latch env self result h
  | addLocalLogs => exact Changelogs.addLocalLogs_latch env self
  | addBetaLogs =>
    show (Changelogs.addBetaLogs env self)._addedSomeLocal = true
    rw [Changelogs.addBetaLogs_latch, h]; rfl
  | addLocalLog text => rfl
  | chatsListChanged folder =>
    show (Changelogs.chatsListChanged env self folder)._addedSomeLocal = true
    unfold Changelogs.chatsListChanged
    split
    · exact Changelogs.addKotatoLogs_latch env self
    · exact h

/-- An operation that runs `addKotatoLogs` is `addKotatoLogs` on the object. -/
theorem Op.run_of_runsKotato (env : Env) (self : Changelogs) (op : Op)
    (h : op.runsKotato self = true) : op.run env self = Changelogs.addKotatoLogs env self := by
  cases op with
  | addKotatoLogs => rfl
  | chatsListChanged folder =>
    show Changelogs.chatsListChanged env self folder = _
    exact if_pos h
  | requestCloudLogs => cases h
  | callback result => cases h
  | addLocalLogs => cases h
  | addBetaLogs => cases h
  | addLocalLog text => cases h

/-- With the latch set, no run of `addKotatoLogs` sends anything, however the
sequence goes on. -/
theorem kotatoNotices_latched (env : Env) (ops : List Op) :
    ∀ self : Changelogs, self._addedSomeLocal = true → kotatoNotices env self ops = 0 := by
  induction ops with
  | nil => intro self _; rfl
  | cons op ops ih =>
    intro self h
    rw [kotatoNotices, ih _ (Op.run_latch env self op h)]
    by_cases hk : op.runsKotato self = true
    · rw [if_pos hk, Op.run_of_runsKotato env self op hk,
        Changelogs.addKotatoLogs_latched env self h]
      simp
    · rw [if_neg hk]

namespace Changelogs

theorem channelLinkLoop_eq (baseLang currentLang : QString) (langs : List QString) :
    channelLinkLoop baseLang currentLang langs
      = if langs.any (fun l => QString.startsWith baseLang l || currentLang == l)
        then "https://t.me/kotatogram_ru".toList else [] := by
  induction langs with
  | nil => rfl
  | cons l rest ih =>
    rw [channelLinkLoop, ih, List.any_cons]
    by_cases h : (QString.startsWith baseLang l || currentLang == l) = true
    · simp [h]
    · simp only [h, if_false, Bool.not_eq_true] at h ⊢
      simp [h]

theorem channelLink_eq (baseLang currentLang : QString) :
    channelLink baseLang currentLang
      = if ["ru".toList, "uk".toList, "be".toList].any
            (fun l => QString.startsWith baseLang l || currentLang == l)
        then "https://t.me/kotatogram_ru".toList else "https://t.me/kotatogram".toList := by
  unfold channelLink
  rw [channelLinkLoop_eq]
  split <;> rfl

end Changelogs

/-! Version formatting: the theorems -/

/-- C7: for a version `major*1000000 + minor*1000 + patch` with `minor < 1000`
and `patch < 1000`, `FormatVersionDisplay` is the decimal text `major.minor`
when `patch = 0` and `major.minor.patch` otherwise; it has one `.` when the
version is a multiple of 1000 and two otherwise, and the patch segment is
left out exactly when `version % 1000 = 0`. -/
theorem FormatVersionDisplay_decimal (major minor patch : Nat)
    (hminor : minor < 1000) (hpatch : patch < 1000) :
    FormatVersionDisplay ((major * 1000000 + minor * 1000 + patch : Nat) : Int)
      = (if patch = 0 then (Nat.repr major ++ "." ++ Nat.repr minor).toList
         else (Nat.repr major ++ "." ++ Nat.repr minor ++ "." ++ Nat.repr patch).toList)
    ∧ List.count '.'
        (FormatVersionDisplay ((major * 1000000 + minor * 1000 + patch : Nat) : Int))
      = (if (major * 1000000 + minor * 1000 + patch) % 1000 = 0 then 1 else 2)
    ∧ (FormatVersionDisplay ((major * 1000000 + minor * 1000 + patch : Nat) : Int)
        = (Nat.repr major ++ "." ++ Nat.repr minor).toList
      ↔ (major * 1000000 + minor * 1000 + patch) % 1000 = 0) := by
  obtain ⟨h1, h2, h3⟩ := version_segments major minor patch hminor hpatch
  have hmod : (major * 1000000 + minor * 1000 + patch) % 1000 = patch := by omega
  have hform : FormatVersionDisplay ((major * 1000000 + minor * 1000 + patch : Nat) : Int)
      = QString.number (major : Int) ++ '.' :: QString.number (minor : Int)
        ++ (if patch = 0 then [] else '.' :: QString.number (patch : Int)) := by
    unfold FormatVersionDisplay
    rw [h1, h2, h3]
    by_cases hp : patch = 0
    · simp [hp]
    · have : (patch : Int) ≠ 0 := by exact_mod_cast hp
      simp [hp]
  have hc := count_dot_number major
  have hc2 := count_dot_number minor
  have hc3 := count_dot_number patch
  rw [hmod, hform]
  simp only [number_natCast, String.toList, String.data_append] at hc hc2 hc3 ⊢
  have hdot : ".".data = ['.'] := rfl
  by_cases hp : patch = 0
  · simp [hp, hdot, List.count_cons, hc, hc2]
  · simp only [hp, if_false, hdot]
    refine ⟨by simp, ?_, ?_⟩
    · simp [List.count_cons, hc, hc2, hc3]
    · constructor
      · intro h
        have := congrArg List.length h
        simp at this
      · intro h; exact h.elim

/-- Witness of C7 at version 3002006. -/
theorem FormatVersionDisplay_decimal_witness :
    FormatVersionDisplay 3002006 = "3.2.6".toList
    ∧ List.count '.' (FormatVersionDisplay 3002006) = 2 := by
  have h := FormatVersionDisplay_decimal 3 2 6 (by decide) (by decide)
  exact ⟨h.1, h.2.1⟩

/-- C8: for a version `major*1000000 + minor*1000 + patch` with `minor < 1000`
and `patch < 1000`, `FormatVersionPrecise` is the decimal text
`major.minor.patch`, the patch segment being present also when `patch = 0`,
and it has exactly two `.` characters. -/
theorem FormatVersionPrecise_decimal (major minor patch : Nat)
    (hminor : minor < 1000) (hpatch : patch < 1000) :
    FormatVersionPrecise ((major * 1000000 + minor * 1000 + patch : Nat) : Int)
      = (Nat.repr major ++ "." ++ Nat.repr minor ++ "." ++ Nat.repr patch).toList
    ∧ List.count '.'
        (FormatVersionPrecise ((major * 1000000 + minor * 1000 + patch : Nat) : Int)) = 2 := by
  obtain ⟨h1, h2, h3⟩ := version_segments major minor patch hminor hpatch
  have hc := count_dot_number major
  have hc2 := count_dot_number minor
  have hc3 := count_dot_number patch
  unfold FormatVersionPrecise
  rw [h1, h2, h3]
  simp only [number_natCast, String.toList, String.data_append] at hc hc2 hc3 ⊢
  have hdot : ".".data = ['.'] := rfl
  refine ⟨by simp [hdot], ?_⟩
  simp [List.count_cons, hc, hc2, hc3]

/-- Witness of C8 at version 3002000, whose patch is zero. -/
theorem FormatVersionPrecise_decimal_witness :
    FormatVersionPrecise 3002000 = "3.2.0".toList
    ∧ List.count '.' (FormatVersionPrecise 3002000) = 2 :=
  FormatVersionPrecise_decimal 3 2 0 (by decide) (by decide)

/-! The beta changelog -/

/-- C1: for every old version, `addBetaLogs` sends to the sink exactly one
message for each entry of `BetaLogs` whose key is above the old version and
none for the other entries, in table order, which is ascending key order; the
text of each begins with "New in version ", the display form of the key and
" beta:" with two newlines.  For the old version 3002005 these are the four
keys 3002006, 3002007, 3003001, 3003002, and for 3003001 the key 3003002
alone. -/
theorem addBetaLogs_emits (env : Env) (self : Changelogs) :
    (Changelogs.addBetaLogs env self)._session.serviceNotifications
      = self._session.serviceNotifications
        ++ (BetaLogs.filter (fun e => decide (self._oldVersion < e.1))).map
            (fun e => env.ParseEntities
              { text := "New in version ".toList ++ FormatVersionDisplay e.1
                  ++ " beta:\n\n".toList ++ Changelogs.betaText e.2
                entities := [] })
    ∧ List.Pairwise (fun a b => a < b) (BetaLogs.map Prod.fst)
    ∧ (BetaLogs.filter (fun e => decide ((3002005 : Int) < e.1))).map Prod.fst
      = [3002006, 3002007, 3003001, 3003002]
    ∧ (BetaLogs.filter (fun e => decide ((3003001 : Int) < e.1))).map Prod.fst
      = [3003002] :=
  ⟨Changelogs.addBetaLogs_sent env self, by decide, by decide, by decide⟩

/-! The reply of the server -/

/-- C4: the classification of the callback of `requestCloudLogs`, for each of
the seven shapes of a server result.  The two list shapes are empty exactly
when the list has no element; `updatesTooLong` and `updateShortSentMessage`
are empty and write the diagnostic line; `updateShortMessage`,
`updateShortChatMessage` and `updateShort` are not empty; only the two bad
shapes write to the log. -/
theorem classify_shapes (self : Changelogs) :
    (∀ v, (Changelogs.classify self (.updates v)).2 = true ↔ v.length = 0)
    ∧ (∀ v, (Changelogs.classify self (.updatesCombined v)).2 = true ↔ v.length = 0)
    ∧ (∀ v, (Changelogs.classify self (.updates v)).1 = self
        ∧ (Changelogs.classify self (.updatesCombined v)).1 = self)
    ∧ ((Changelogs.classify self .updatesTooLong).2 = true
        ∧ (Changelogs.classify self .updatesTooLong).1._session.log
          = self._session.log ++ ["API Error: Bad updates type in app changelog.".toList])
    ∧ ((Changelogs.classify self .updateShortSentMessage).2 = true
        ∧ (Changelogs.classify self .updateShortSentMessage).1._session.log
          = self._session.log ++ ["API Error: Bad updates type in app changelog.".toList])
    ∧ Changelogs.classify self .updateShortMessage = (self, false)
    ∧ Changelogs.classify self .updateShortChatMessage = (self, false)
    ∧ Changelogs.classify self .updateShort = (self, false) := by
  refine ⟨?_, ?_, ?_, ⟨rfl, rfl⟩, ⟨rfl, rfl⟩, rfl, rfl, rfl⟩
  · intro v; cases v <;> simp [Changelogs.classify]
  · intro v; cases v <;> simp [Changelogs.classify]
  · intro v; exact ⟨rfl, rfl⟩

/-! The factory -/

/-- C5: `Changelogs::Create` returns an object exactly when the stored old
version is not zero and the stored old Kotatogram version is below
`AppKotatoVersion`; it returns nothing exactly when the old version is zero
or the old Kotatogram version is at least `AppKotatoVersion`; the object
returned carries the two stored values. -/
theorem Create_returns (env : Env) (storage : LocalStorage) (session : Session) :
    ((Changelogs.Create env storage session).2.isSome = true
      ↔ storage.oldVersion ≠ 0 ∧ storage.oldKotatoVersion < env.AppKotatoVersion)
    ∧ ((Changelogs.Create env storage session).2 = none
      ↔ storage.oldVersion = 0 ∨ storage.oldKotatoVersion ≥ env.AppKotatoVersion)
    ∧ (Changelogs.Create env storage session).2.map
        (fun c => (c._oldVersion, c._oldKotatoVersion))
      = (if storage.oldVersion ≠ 0 ∧ storage.oldKotatoVersion < env.AppKotatoVersion
          then some (storage.oldVersion, storage.oldKotatoVersion) else none) := by
  have hc : (Changelogs.Create env storage session).2
      = if storage.oldVersion ≠ 0 ∧ storage.oldKotatoVersion < env.AppKotatoVersion
        then some (Changelogs.ctor session storage.oldVersion storage.oldKotatoVersion)
        else none := rfl
  rw [hc]
  by_cases h : storage.oldVersion ≠ 0 ∧ storage.oldKotatoVersion < env.AppKotatoVersion
  · rw [if_pos h, if_pos h]
    refine ⟨⟨fun _ => h, fun _ => rfl⟩, ⟨fun hn => Option.noConfusion hn, ?_⟩, rfl⟩
    rintro (h0 | h1)
    · exact absurd h0 h.1
    · exact absurd h.2 (not_lt.mpr h1)
  · rw [if_neg h, if_neg h]
    refine ⟨⟨fun hs => Bool.noConfusion hs, fun hc => absurd hc h⟩, ⟨fun _ => ?_, fun _ => rfl⟩, rfl⟩
    by_cases h0 : storage.oldVersion = 0
    · exact Or.inl h0
    · exact Or.inr (not_lt.mp (fun hlt => h ⟨h0, hlt⟩))

/-! The community-channel notice -/

/-- C6: the link `addKotatoLogs` puts into its message is the link of the
Russian-speaking channel exactly when the base language id starts with "ru",
"uk" or "be" or the current language id is one of them, and the default link
exactly when not; with the latch clear the message sent is the template with
that link. -/
theorem channelLink_language (env : Env) (self : Changelogs)
    (baseLang currentLang : QString) :
    (Changelogs.channelLink baseLang currentLang = "https://t.me/kotatogram_ru".toList
      ↔ ("ru".toList <+: baseLang ∨ "uk".toList <+: baseLang ∨ "be".toList <+: baseLang)
        ∨ (currentLang = "ru".toList ∨ currentLang = "uk".toList
          ∨ currentLang = "be".toList))
    ∧ (Changelogs.channelLink baseLang currentLang = "https://t.me/kotatogram".toList
      ↔ ¬ (("ru".toList <+: baseLang ∨ "uk".toList <+: baseLang ∨ "be".toList <+: baseLang)
        ∨ (currentLang = "ru".toList ∨ currentLang = "uk".toList
          ∨ currentLang = "be".toList)))
    ∧ (Changelogs.addKotatoLogs env { self with _addedSomeLocal := false })._session.serviceNotifications
      = self._session.serviceNotifications
        ++ [env.ParseEntities
            { text := QString.trimmed
                (env.ktg_new_version env.AppKotatoVersionStr env.AppVersionStr
                  (Changelogs.channelLink env.baseId env.langId))
              entities := [] }] := by
  have key : Changelogs.channelLink baseLang currentLang
      = if ("ru".toList <+: baseLang ∨ "uk".toList <+: baseLang ∨ "be".toList <+: baseLang)
          ∨ (currentLang = "ru".toList ∨ currentLang = "uk".toList
            ∨ currentLang = "be".toList)
        then "https://t.me/kotatogram_ru".toList else "https://t.me/kotatogram".toList := by
    rw [Changelogs.channelLink_eq]
    have hiff : (["ru".toList, "uk".toList, "be".toList].any
          (fun l => QString.startsWith baseLang l || currentLang == l) = true)
        ↔ (("ru".toList <+: baseLang ∨ "uk".toList <+: baseLang ∨ "be".toList <+: baseLang)
          ∨ (currentLang = "ru".toList ∨ currentLang = "uk".toList
            ∨ currentLang = "be".toList)) := by
      simp only [List.any_cons, List.any_nil, Bool.or_false, Bool.or_eq_true,
        QString.startsWith, List.isPrefixOf_iff_prefix, beq_iff_eq]
      tauto
    by_cases h : (("ru".toList <+: baseLang ∨ "uk".toList <+: baseLang
        ∨ "be".toList <+: baseLang)
        ∨ (currentLang = "ru".toList ∨ currentLang = "uk".toList
          ∨ currentLang = "be".toList))
    · rw [if_pos h, if_pos (hiff.mpr h)]
    · rw [if_neg h, if_neg (fun hc => h (hiff.mp hc))]
  refine ⟨?_, ?_, rfl⟩
  · rw [key]
    constructor
    · intro h
      by_contra hc
      rw [if_neg hc] at h
      exact absurd h (by decide)
    · intro h; rw [if_pos h]
  · rw [key]
    constructor
    · intro h hc
      rw [if_pos hc] at h
      exact absurd h (by decide)
    · intro h; rw [if_neg h]

/-! The bullet markers -/

/-- C2 fails as stated.  The trimmed text of the table entry of 3002006
begins with a dash and a space, and its second line begins with a dash and a
space too; in the text that `addBetaLog` composes the second line begins
with the bullet: it is not the line of the trimmed input. -/
theorem later_marker_rewritten :
    QString.startsWith (QString.trimmed demoChanges) "- ".toList = true
    ∧ (QString.lines (QString.trimmed demoChanges))[1]?
      = some ("- Give a custom name to your desktop session "
          ++ "to distinguish it in the sessions list.").toList
    ∧ (QString.lines (Changelogs.betaText demoChanges))[1]?
      = some ("• Give a custom name to your desktop session "
          ++ "to distinguish it in the sessions list.").toList := by
  decide

/-- C2, amended: when the trimmed changes begin with a dash and a space, the
text that `addBetaLog` composes has as many lines as the trimmed changes; its
first line is the first line of the trimmed changes with the bullet U+2022
and a space in place of the dash and the space; every later line that does
not begin with a dash and a space is the line of the trimmed changes; and a
later line that begins with a dash and a space has them replaced by the
bullet and a space, the rest of the line being kept. -/
theorem betaText_markers (changes : QString)
    (h : "- ".toList <+: QString.trimmed changes) :
    (QString.lines (Changelogs.betaText changes)).length
      = (QString.lines (QString.trimmed changes)).length
    ∧ (QString.lines (Changelogs.betaText changes)).headD []
      = "• ".toList ++ ((QString.lines (QString.trimmed changes)).headD []).drop 2
    ∧ (∀ (i : Nat) (l : QString), 0 < i →
        (QString.lines (QString.trimmed changes))[i]? = some l →
        ¬ "- ".toList <+: l →
        (QString.lines (Changelogs.betaText changes))[i]? = some l)
    ∧ (∀ (i : Nat) (r : QString), 0 < i →
        (QString.lines (QString.trimmed changes))[i]? = some ("- ".toList ++ r) →
        (QString.lines (Changelogs.betaText changes))[i]? = some ("• ".toList ++ r)) := by
  rw [Changelogs.lines_betaText]
  refine ⟨List.length_map _ _, ?_, ?_, ?_⟩
  · obtain ⟨u, hu⟩ := h
    have hl : QString.lines ("- ".toList ++ u)
        = ('-' :: ' ' :: (QString.lines u).headD []) :: (QString.lines u).tail := by
      show QString.lines ('-' :: ' ' :: u) = _
      rw [QString.lines_cons '-' _ (by decide), QString.lines_cons ' ' _ (by decide)]
      rfl
    rw [← hu, hl, List.map_cons, List.headD_cons, List.headD_cons, QString.bulletLine_dash]
    rfl
  · intro i l _ hl hnot
    rw [List.getElem?_map, hl, Option.map_some', QString.bulletLine_other l hnot]
  · intro i r _ hl
    rw [List.getElem?_map, hl, Option.map_some']
    exact congrArg some (QString.bulletLine_dash r)

/-- Witness of the amended C2 at the table entry of 3002006: its first line,
with the bullet. -/
theorem betaText_markers_witness :
    QString.startsWith (QString.trimmed demoChanges) "- ".toList = true
    ∧ (QString.lines (Changelogs.betaText demoChanges)).headD []
      = "• ".toList ++ ((QString.lines (QString.trimmed demoChanges)).headD []).drop 2 :=
  ⟨by decide, (betaText_markers demoChanges (List.isPrefixOf_iff_prefix.mp (by decide))).2.1⟩

/-! The latch -/

/-- C3 fails as stated.  The notifier `demoLatched` has sent the notice of
`addKotatoLogs`, so its latch is set; in the beta build `demoEnv`, and with
the old version 3002005, `addBetaLogs` still sends four messages, and so does
`addLocalLogs`. -/
theorem latch_does_not_gate_beta :
    demoLatched._addedSomeLocal = true
    ∧ demoLatched._session.serviceNotifications.length = 1
    ∧ (Changelogs.addBetaLogs demoEnv demoLatched)._session.serviceNotifications.length = 5
    ∧ (Changelogs.addLocalLogs demoEnv demoLatched)._session.serviceNotifications.length = 5 := by
  decide

/-- C3, amended: with the latch set, `addKotatoLogs` sends nothing, however
often it is called; `addLocalLogs` sends no generic message: each call sends
the messages of the beta step only (those of `addBetaLogs` in a beta or alpha
build, nothing in another build); `addBetaLogs` is not gated by the latch and
sends the message of every table entry above the old version; and the latch
stays set after each of the three. -/
theorem latch_holds (env : Env) (self : Changelogs) (h : self._addedSomeLocal = true) :
    (∀ n : Nat, ((Changelogs.addKotatoLogs env)^[n] self)._session.serviceNotifications
        = self._session.serviceNotifications)
    ∧ (∀ n : Nat, ((Changelogs.addLocalLogs env)^[n] self)._session.serviceNotifications
        = self._session.serviceNotifications
          ++ (List.replicate n
              (if (env.AppKotatoBetaVersion || env.cAlphaVersion != 0) = true
                then Changelogs.betaMessages env self._oldVersion BetaLogs else [])).flatten)
    ∧ (Changelogs.addBetaLogs env self)._session.serviceNotifications
        = self._session.serviceNotifications
          ++ Changelogs.betaMessages env self._oldVersion BetaLogs
    ∧ (Changelogs.addKotatoLogs env self)._addedSomeLocal = true
    ∧ (Changelogs.addLocalLogs env self)._addedSomeLocal = true
    ∧ (Changelogs.addBetaLogs env self)._addedSomeLocal = true := by
  refine ⟨?_, ?_, Changelogs.addBetaLogs_sent env self,
    Changelogs.addKotatoLogs_latch env self, Changelogs.addLocalLogs_latch env self, ?_⟩
  · intro n
    induction n generalizing self with
    | zero => rfl
    | succ n ih =>
      rw [Function.iterate_succ_apply, ih _ (Changelogs.addKotatoLogs_latch env self),
        Changelogs.addKotatoLogs_latched env self h]
  · intro n
    induction n generalizing self with
    | zero => simp
    | succ n ih =>
      have hs := Changelogs.addLocalLogs_sent env self
      rw [h] at hs
      simp only [Bool.true_or, if_true, List.append_nil, Changelogs.sent,
        Changelogs.betaPart] at hs
      rw [Function.iterate_succ_apply, ih _ (Changelogs.addLocalLogs_latch env self),
        Changelogs.addLocalLogs_oldVersion, hs, List.replicate_succ, List.flatten_cons,
        List.append_assoc]
  · rw [Changelogs.addBetaLogs_latch, h]; rfl

/-- Witness of the amended C3 at the latched notifier `demoLatched`: a second
call of `addKotatoLogs` sends nothing. -/
theorem latch_holds_witness :
    demoLatched._addedSomeLocal = true
    ∧ (Changelogs.addKotatoLogs demoEnv demoLatched)._session.serviceNotifications
      = demoLatched._session.serviceNotifications :=
  ⟨by decide, (latch_holds demoEnv demoLatched (by decide)).1 1⟩

/-! The generic message -/

/-- C9: one call of `addLocalLogs` sends the messages of its beta step and
then the generic message, once, exactly when the latch is clear at the end of
the beta step, that is when it was clear before the call and the beta step
sent nothing.  In a beta or alpha build with a table key above the old
version no generic message is sent; with the latch clear and no beta entry
to send, the generic message alone is sent. -/
theorem addLocalLogs_generic (env : Env) (self : Changelogs) :
    (Changelogs.addLocalLogs env self)._session.serviceNotifications
      = (if (env.AppKotatoBetaVersion || env.cAlphaVersion != 0) = true
          then Changelogs.addBetaLogs env self else self)._session.serviceNotifications
        ++ (if (if (env.AppKotatoBetaVersion || env.cAlphaVersion != 0) = true
                then Changelogs.addBetaLogs env self else self)._addedSomeLocal = true
            then [] else [Changelogs.genericMessage env])
    ∧ (Changelogs.addLocalLogs env self)._session.serviceNotifications
      = self._session.serviceNotifications
        ++ (if (env.AppKotatoBetaVersion || env.cAlphaVersion != 0) = true
            then Changelogs.betaMessages env self._oldVersion BetaLogs else [])
        ++ (if (self._addedSomeLocal
              || ((env.AppKotatoBetaVersion || env.cAlphaVersion != 0)
                && BetaLogs.any (fun e => decide (self._oldVersion < e.1)))) = true
            then [] else [Changelogs.genericMessage env])
    ∧ ((env.AppKotatoBetaVersion || env.cAlphaVersion != 0) = true
        → (∃ e ∈ BetaLogs, self._oldVersion < e.1)
        → (Changelogs.addLocalLogs env self)._session.serviceNotifications
          = self._session.serviceNotifications
            ++ Changelogs.betaMessages env self._oldVersion BetaLogs)
    ∧ (self._addedSomeLocal = false
        → ((env.AppKotatoBetaVersion || env.cAlphaVersion != 0) = false
            ∨ ∀ e ∈ BetaLogs, ¬ self._oldVersion < e.1)
        → (Changelogs.addLocalLogs env self)._session.serviceNotifications
          = self._session.serviceNotifications ++ [Changelogs.genericMessage env]) := by
  have hs := Changelogs.addLocalLogs_sent env self
  obtain ⟨h1, h2, _⟩ := Changelogs.betaStep env self
  simp only [Changelogs.sent, Changelogs.betaPart] at hs h1
  refine ⟨?_, hs, ?_, ?_⟩
  · rw [hs, h1, h2]
  · intro hb ⟨e, he, hlt⟩
    have hany : BetaLogs.any (fun e => decide (self._oldVersion < e.1)) = true :=
      List.any_eq_true.mpr ⟨e, he, by simpa using hlt⟩
    rw [hs, hb, hany]
    simp
  · intro hl hno
    have hnone : Changelogs.betaMessages env self._oldVersion BetaLogs = []
        ∨ (env.AppKotatoBetaVersion || env.cAlphaVersion != 0) = false := by
      rcases hno with hb | hall
      · exact Or.inr hb
      · left
        unfold Changelogs.betaMessages
        rw [List.filter_eq_nil_iff.mpr (by simpa using hall)]
        rfl
    have hany : ((env.AppKotatoBetaVersion || env.cAlphaVersion != 0)
        && BetaLogs.any (fun e => decide (self._oldVersion < e.1))) = false := by
      rcases hno with hb | hall
      · rw [hb]; rfl
      · have : BetaLogs.any (fun e => decide (self._oldVersion < e.1)) = false := by
          rw [List.any_eq_false]; simpa using hall
        rw [this, Bool.and_false]
    rw [hs, hl, hany]
    rcases hnone with hn | hb
    · rw [hn]; simp
    · rw [hb]; simp

/-- Witness of C9 in the beta build `demoEnv`.  A fresh notifier for the old
version 3002005 sends the four beta messages and no generic message; one for
the old version 3003002, above every key, sends the generic message alone. -/
theorem addLocalLogs_generic_witness :
    (Changelogs.addLocalLogs demoEnv
        (Changelogs.ctor demoSession 3002005 0))._session.serviceNotifications
      = Changelogs.betaMessages demoEnv 3002005 BetaLogs
    ∧ (Changelogs.addLocalLogs demoEnv
        (Changelogs.ctor demoSession 3003002 0))._session.serviceNotifications
      = [Changelogs.genericMessage demoEnv] :=
  ⟨(addLocalLogs_generic demoEnv (Changelogs.ctor demoSession 3002005 0)).2.2.1
      (by decide) (by decide),
    (addLocalLogs_generic demoEnv (Changelogs.ctor demoSession 3003002 0)).2.2.2
      rfl (Or.inr (by decide))⟩

/-! The community-channel notice fires at most once -/

/-- C10: `addKotatoLogs` sends exactly one message, its notice, when the latch
is clear and nothing when it is set, and it leaves the latch set.  For a
notifier made by the constructor and taken through any sequence of
operations, the latch is clear exactly when nothing was sent since the
construction, so `addKotatoLogs` then sends its notice exactly when no local
message was sent before.  Over any sequence of operations, from any notifier,
the runs of `addKotatoLogs` (its direct calls and the chats-list events
handed to it) send at most one message in all. -/
theorem kotato_notice_at_most_once (env : Env) (self : Changelogs) (ops : List Op) :
    (Changelogs.addKotatoLogs env self)._session.serviceNotifications
      = self._session.serviceNotifications
        ++ (if self._addedSomeLocal = true then [] else [Changelogs.kotatoMessage env])
    ∧ (Changelogs.addKotatoLogs env self)._addedSomeLocal = true
    ∧ (∀ (session : Session) (oldVersion oldKotatoVersion : Int),
        (Changelogs.addKotatoLogs env
            (runOps env (Changelogs.ctor session oldVersion oldKotatoVersion)
              ops))._session.serviceNotifications
          = (runOps env (Changelogs.ctor session oldVersion oldKotatoVersion)
              ops)._session.serviceNotifications
            ++ (if (runOps env (Changelogs.ctor session oldVersion oldKotatoVersion)
                  ops)._session.serviceNotifications = session.serviceNotifications
                then [Changelogs.kotatoMessage env] else []))
    ∧ kotatoNotices env self ops ≤ 1 := by
  refine ⟨Changelogs.addKotatoLogs_sent env self, Changelogs.addKotatoLogs_latch env self,
    ?_, ?_⟩
  · intro session oldVersion oldKotatoVersion
    obtain ⟨added, h1, h2⟩ :=
      runOps_added env ops (Changelogs.ctor session oldVersion oldKotatoVersion)
    have hs := Changelogs.addKotatoLogs_sent env
      (runOps env (Changelogs.ctor session oldVersion oldKotatoVersion) ops)
    have hc : (Changelogs.ctor session oldVersion oldKotatoVersion).sent
        = session.serviceNotifications := rfl
    have hl : (Changelogs.ctor session oldVersion oldKotatoVersion)._addedSomeLocal
        = false := rfl
    simp only [Changelogs.sent] at hs h1 hc
    rw [hs, h2, hl, h1, hc]
    cases added with
    | nil => simp
    | cons x xs => simp
  · induction ops generalizing self with
    | nil => exact Nat.zero_le _
    | cons op ops ih =>
      rw [kotatoNotices]
      by_cases hk : op.runsKotato self = true
      · rw [if_pos hk, Op.run_of_runsKotato env self op hk,
          kotatoNotices_latched env ops _ (Changelogs.addKotatoLogs_latch env self)]
        have hs := Changelogs.addKotatoLogs_sent env self
        simp only [Changelogs.sent] at hs
        rw [hs]
        split <;> simp
      · rw [if_neg hk, Nat.zero_add]
        exact ih _

/-! Lines put together again, and the reference of the bullet normalisation -/

namespace QString

theorem joinLines_cons_cons (l x : QString) (xs : List QString) :
    joinLines (l :: x :: xs) = l ++ '\n' :: joinLines (x :: xs) := by
  simp [joinLines]

theorem joinLines_cons_head (c : Char) (l : QString) (ls : List QString) :
    joinLines ((c :: l) :: ls) = c :: joinLines (l :: ls) := by
  simp [joinLines]

/-- Cutting a text into its lines and joining them gives the text back. -/
theorem joinLines_lines (s : QString) : joinLines (lines s) = s := by
  induction s with
  | nil => rfl
  | cons c cs ih =>
    by_cases h : c = '\n'
    · subst h
      rw [lines_newline, lines_eq_cons cs, joinLines_cons_cons, ← lines_eq_cons cs, ih]
      rfl
    · rw [lines_cons c cs h, joinLines_cons_head, ← lines_eq_cons cs, ih]

/-- A line whose marker was rewritten does not begin with a dash and a
space. -/
theorem bulletLine_no_dash (l : QString) : ¬ "- ".toList <+: bulletLine l := by
  unfold bulletLine
  by_cases h : "- ".toList.isPrefixOf l = true
  · rw [if_pos h]
    rintro ⟨u, hu⟩
    exact absurd (List.head_eq_of_cons_eq hu) (by decide)
  · rw [if_neg h]
    rw [List.isPrefixOf_iff_prefix] at h
    exact h

end QString

/-! The version token read back -/

namespace QString

theorem split_no_sep (sep : Char) (s : QString) (h : sep ∉ s) : split sep s = [s] := by
  induction s with
  | nil => rfl
  | cons c cs ih =>
    have hc : c ≠ sep := fun e => h (e ▸ List.mem_cons_self _ _)
    have hcs : sep ∉ cs := fun m => h (List.mem_cons_of_mem _ m)
    rw [split, if_neg hc, ih hcs]
    rfl

theorem split_append_sep (sep : Char) (a b : QString) (h : sep ∉ a) :
    split sep (a ++ sep :: b) = a :: split sep b := by
  induction a with
  | nil => simp [split]
  | cons c cs ih =>
    have hc : c ≠ sep := fun e => h (e ▸ List.mem_cons_self _ _)
    have hcs : sep ∉ cs := fun m => h (List.mem_cons_of_mem _ m)
    rw [List.cons_append, split, if_neg hc, ih hcs]
    rfl

theorem digitChar_value (d : Nat) (h : d < 10) :
    (Nat.digitChar d).toNat - '0'.toNat = d := by
  interval_cases d <;> rfl

/-- Reading the digits that `Nat.toDigitsCore` writes in front of an
accumulator, with fuel enough for the number. -/
theorem foldl_toDigitsCore (fuel : Nat) :
    ∀ (n : Nat) (acc : List Char), n < fuel →
      (Nat.toDigitsCore 10 fuel n acc).foldl
          (fun v c => 10 * v + (c.toNat - '0'.toNat)) 0
        = acc.foldl (fun v c => 10 * v + (c.toNat - '0'.toNat)) n := by
  induction fuel with
  | zero =>
    intro k rest hk
    omega
  | succ fuel ih =>
    intro n acc hn
    have hd := digitChar_value (n % 10) (Nat.mod_lt _ (by decide))
    unfold Nat.toDigitsCore
    by_cases hz : n / 10 = 0
    · have hn10 : n % 10 = n := by omega
      simp only [hz, if_true, List.foldl_cons, Nat.mul_zero, Nat.zero_add]
      rw [hd, hn10]
    · simp only [hz, if_false]
      rw [ih (n / 10) _ (by omega), List.foldl_cons, hd]
      congr 1
      omega

/-- The decimal rendering of a natural number reads back as the number. -/
theorem decimalValue_number (n : Nat) : decimalValue (number (n : Int)) = n :=
  foldl_toDigitsCore (n + 1) n [] (Nat.lt_succ_self n)

end QString

/-- The precise format of a natural number, segment by segment. -/
theorem FormatVersionPrecise_natCast (n : Nat) :
    FormatVersionPrecise (n : Int)
      = QString.number ((n / 1000000 : Nat) : Int)
        ++ '.' :: (QString.number ((n % 1000000 / 1000 : Nat) : Int)
        ++ '.' :: QString.number ((n % 1000 : Nat) : Int)) := by
  unfold FormatVersionPrecise
  have h1 : Int.tdiv (n : Int) 1000000 = ((n / 1000000 : Nat) : Int) :=
    (Int.ofNat_tdiv n 1000000).symm
  have h2 : Int.tmod (n : Int) 1000000 = ((n % 1000000 : Nat) : Int) :=
    (Int.ofNat_tmod n 1000000).symm
  have h3 : Int.tdiv ((n % 1000000 : Nat) : Int) 1000 = ((n % 1000000 / 1000 : Nat) : Int) :=
    (Int.ofNat_tdiv (n % 1000000) 1000).symm
  have h4 : Int.tmod (n : Int) 1000 = ((n % 1000 : Nat) : Int) :=
    (Int.ofNat_tmod n 1000).symm
  rw [h1, h2, h3, h4, List.append_assoc, List.cons_append]

/-- The precise format of a natural number cut at its dots and read back. -/
theorem readVersionPrecise_natCast (n : Nat) :
    QString.split '.' (FormatVersionPrecise (n : Int))
      = [QString.number ((n / 1000000 : Nat) : Int),
          QString.number ((n % 1000000 / 1000 : Nat) : Int),
          QString.number ((n % 1000 : Nat) : Int)]
    ∧ readVersionPrecise (FormatVersionPrecise (n : Int)) = some (n : Int) := by
  have hs : QString.split '.' (FormatVersionPrecise (n : Int))
      = [QString.number ((n / 1000000 : Nat) : Int),
          QString.number ((n % 1000000 / 1000 : Nat) : Int),
          QString.number ((n % 1000 : Nat) : Int)] := by
    rw [FormatVersionPrecise_natCast,
      QString.split_append_sep '.' _ _ (number_natCast_no_dot _),
      QString.split_append_sep '.' _ _ (number_natCast_no_dot _),
      QString.split_no_sep '.' _ (number_natCast_no_dot _)]
  refine ⟨hs, ?_⟩
  unfold readVersionPrecise
  rw [hs]
  simp only [QString.decimalValue_number]
  congr 2
  omega

/-! The bullet normalisation and its reference -/

/-- C12: for every changelog text, the text that `addBetaLog` composes after
the header is the line-wise reference of the trimmed text: every dash and
space at the start of a line replaced by the bullet U+2022 and a space,
nothing else changed.  The number of lines is kept, a line that began with
the marker keeps the text after it, a line without the marker is kept as it
is, and no line of the composed text begins with a dash and a space. -/
theorem betaText_reference (changes : QString) :
    Changelogs.betaText changes = bulletReference (QString.trimmed changes)
    ∧ (QString.lines (Changelogs.betaText changes)).length
      = (QString.lines (QString.trimmed changes)).length
    ∧ (∀ (i : Nat) (r : QString),
        (QString.lines (QString.trimmed changes))[i]? = some ("- ".toList ++ r) →
        (QString.lines (Changelogs.betaText changes))[i]? = some ("• ".toList ++ r))
    ∧ (∀ (i : Nat) (l : QString),
        (QString.lines (QString.trimmed changes))[i]? = some l →
        ¬ "- ".toList <+: l →
        (QString.lines (Changelogs.betaText changes))[i]? = some l)
    ∧ (∀ l ∈ QString.lines (Changelogs.betaText changes), ¬ "- ".toList <+: l) := by
  have hl := Changelogs.lines_betaText changes
  refine ⟨?_, ?_, ?_, ?_, ?_⟩
  · unfold bulletReference
    rw [← hl, QString.joinLines_lines]
  · rw [hl, List.length_map]
  · intro i r hi
    rw [hl, List.getElem?_map, hi, Option.map_some']
    exact congrArg some (QString.bulletLine_dash r)
  · intro i l hi hnot
    rw [hl, List.getElem?_map, hi, Option.map_some', QString.bulletLine_other l hnot]
  · intro l hmem
    rw [hl] at hmem
    obtain ⟨l0, _, rfl⟩ := List.mem_map.mp hmem
    exact QString.bulletLine_no_dash l0

/-! The precise format is injective -/

/-- C17: on non-negative versions `FormatVersionPrecise` is injective.  The
token of a non-negative version, cut at its dots, has the three segments of
the decimal renderings of `v / 1000000`, `v % 1000000 / 1000` and `v % 1000`,
the last two below 1000, and reading the segments `x.y.z` back as
`x*1000000 + y*1000 + z` gives the version. -/
theorem FormatVersionPrecise_injective (a b : Int) (ha : 0 ≤ a) (hb : 0 ≤ b) :
    (FormatVersionPrecise a = FormatVersionPrecise b → a = b)
    ∧ QString.split '.' (FormatVersionPrecise a)
      = [QString.number (a.tdiv 1000000), QString.number ((a.tmod 1000000).tdiv 1000),
          QString.number (a.tmod 1000)]
    ∧ readVersionPrecise (FormatVersionPrecise a) = some a
    ∧ (a.tmod 1000000).tdiv 1000 < 1000
    ∧ a.tmod 1000 < 1000 := by
  obtain ⟨n, rfl⟩ := Int.eq_ofNat_of_zero_le ha
  obtain ⟨m, rfl⟩ := Int.eq_ofNat_of_zero_le hb
  have hn := readVersionPrecise_natCast n
  have hm := readVersionPrecise_natCast m
  have h1 : Int.tdiv (n : Int) 1000000 = ((n / 1000000 : Nat) : Int) :=
    (Int.ofNat_tdiv n 1000000).symm
  have h2 : Int.tmod (n : Int) 1000000 = ((n % 1000000 : Nat) : Int) :=
    (Int.ofNat_tmod n 1000000).symm
  have h3 : Int.tdiv ((n % 1000000 : Nat) : Int) 1000 = ((n % 1000000 / 1000 : Nat) : Int) :=
    (Int.ofNat_tdiv (n % 1000000) 1000).symm
  have h4 : Int.tmod (n : Int) 1000 = ((n % 1000 : Nat) : Int) :=
    (Int.ofNat_tmod n 1000).symm
  refine ⟨?_, ?_, hn.2, ?_, ?_⟩
  · intro h
    have hr := hn.2
    rw [h, hm.2] at hr
    exact (Option.some.inj hr).symm
  · rw [h1, h2, h3, h4]; exact hn.1
  · rw [h2, h3]
    have : n % 1000000 / 1000 < 1000 := by omega
    exact_mod_cast this
  · rw [h4]
    have : n % 1000 < 1000 := Nat.mod_lt _ (by decide)
    exact_mod_cast this

/-- Witness of C17 at the versions 3002000 and 3002000: the token reads back
as the version. -/
theorem FormatVersionPrecise_injective_witness :
    FormatVersionPrecise 3002000 = "3.2.0".toList
    ∧ readVersionPrecise (FormatVersionPrecise 3002000) = some 3002000 :=
  ⟨by decide,
    (FormatVersionPrecise_injective 3002000 3002000 (by decide) (by decide)).2.2.1⟩

/-! What the composing operations leave alone -/

namespace Changelogs

/-- A member or a record of calls that `addLocalLog` leaves alone is left
alone by the loop of `addBetaLogs`. -/
theorem addBetaLogs_frame {α : Type} (f : Changelogs → α)
    (hf : ∀ (env : Env) (self : Changelogs) (text : QString),
      f (addLocalLog env self text) = f self)
    (env : Env) (self : Changelogs) : f (addBetaLogs env self) = f self := by
  unfold addBetaLogs
  generalize BetaLogs = table
  induction table generalizing self with
  | nil => rfl
  | cons e rest ih =>
    rw [List.foldl_cons, ih]
    unfold addBetaLog
    split
    · rfl
    · exact hf env self _

/-- A member or a record of calls that `addLocalLog` leaves alone is left
alone by `addLocalLogs`. -/
theorem addLocalLogs_frame {α : Type} (f : Changelogs → α)
    (hf : ∀ (env : Env) (self : Changelogs) (text : QString),
      f (addLocalLog env self text) = f self)
    (env : Env) (self : Changelogs) : f (addLocalLogs env self) = f self := by
  have hmid : f (if (env.AppKotatoBetaVersion || env.cAlphaVersion != 0) = true
      then addBetaLogs env self else self) = f self := by
    split
    · exact addBetaLogs_frame f hf env self
    · rfl
  rw [addLocalLogs_eq, ← hmid]
  generalize (if (env.AppKotatoBetaVersion || env.cAlphaVersion != 0) = true
    then addBetaLogs env self else self) = mid
  split
  · rfl
  · exact hf env mid _

theorem classify_snd (self other : Changelogs) (result : MTPUpdates) :
    (classify self result).2 = (classify other result).2 := by
  cases result <;> rfl

theorem classify_fst_of_not_empty (self : Changelogs) (result : MTPUpdates)
    (h : (classify self result).2 = false) : (classify self result).1 = self := by
  cases result <;> first | rfl | exact Bool.noConfusion h

theorem classify_appliedUpdates (self : Changelogs) (result : MTPUpdates) :
    (classify self result).1._session.appliedUpdates = self._session.appliedUpdates := by
  cases result <;> rfl

theorem classify_subscription (self : Changelogs) (result : MTPUpdates) :
    (classify self result).1._chatsSubscription = self._chatsSubscription := by
  cases result <;> rfl

/-- The callback of `requestCloudLogs`, by the classification of the result. -/
theorem callback_eq (env : Env) (self : Changelogs) (result : MTPUpdates) :
    callback env self result
      = if (classify self result).2 = true
        then addLocalLogs env (classify (self.applyUpdates result) result).1
        else self.applyUpdates result := by
  have hc : callback env self result
      = if (classify (self.applyUpdates result) result).2 = true
        then addLocalLogs env (classify (self.applyUpdates result) result).1
        else (classify (self.applyUpdates result) result).1 := rfl
  have hs := classify_snd (self.applyUpdates result) self result
  rw [hc, hs]
  by_cases h : (classify self result).2 = true
  · rw [if_pos h, if_pos h]
  · rw [if_neg h, if_neg h]
    exact classify_fst_of_not_empty _ _ (by rw [hs]; simpa using h)

theorem callback_subscription (env : Env) (self : Changelogs) (result : MTPUpdates) :
    (callback env self result)._chatsSubscription = self._chatsSubscription := by
  rw [callback_eq]
  split
  · rw [addLocalLogs_frame (fun c => c._chatsSubscription) (fun _ _ _ => rfl),
      classify_subscription]
    rfl
  · rfl

theorem addKotatoLogs_subscription (env : Env) (self : Changelogs) :
    (addKotatoLogs env self)._chatsSubscription = false := by
  unfold addKotatoLogs
  by_cases h : self._addedSomeLocal = true
  · simp [h]
  · simp [h, addLocalLog, serviceNotification]

end Changelogs

/-- No operation brings the subscription back. -/
theorem Op.run_unsubscribed (env : Env) (self : Changelogs) (op : Op)
    (h : self._chatsSubscription = false) : (op.run env self)._chatsSubscription = false := by
  cases op with
  | addKotatoLogs => exact Changelogs.addKotatoLogs_subscription env self
  | requestCloudLogs => rfl
  | callback result =>
    show (Changelogs.callback env self result)._chatsSubscription = false
    rw [Changelogs.callback_subscription]; exact h
  | addLocalLogs =>
    show (Changelogs.addLocalLogs env self)._chatsSubscription = false
    rw [Changelogs.addLocalLogs_frame (fun c => c._chatsSubscription) (fun _ _ _ => rfl)]
    exact h
  | addBetaLogs =>
    show (Changelogs.addBetaLogs env self)._chatsSubscription = false
    rw [Changelogs.addBetaLogs_frame (fun c => c._chatsSubscription) (fun _ _ _ => rfl)]
    exact h
  | addLocalLog text => exact h
  | chatsListChanged folder =>
    show (Changelogs.chatsListChanged env self folder)._chatsSubscription = false
    unfold Changelogs.chatsListChanged
    split
    · exact Changelogs.addKotatoLogs_subscription env self
    · exact h

/-- Without a subscription the handler does not run, however the sequence
goes on. -/
theorem handlerRuns_unsubscribed (env : Env) (ops : List Op) :
    ∀ self : Changelogs, self._chatsSubscription = false → handlerRuns env self ops = 0 := by
  induction ops with
  | nil => intro self _; rfl
  | cons op ops ih =>
    intro self h
    rw [handlerRuns, ih _ (Op.run_unsubscribed env self op h)]
    have hr : op.runsHandler self = false := by
      cases op <;> simp [Op.runsHandler, h]
    rw [hr]; rfl

/-- An operation that runs the handler is `addKotatoLogs` on the object. -/
theorem Op.run_of_runsHandler (env : Env) (self : Changelogs) (op : Op)
    (h : op.runsHandler self = true) : op.run env self = Changelogs.addKotatoLogs env self := by
  cases op with
  | chatsListChanged folder => exact if_pos h
  | addKotatoLogs => cases h
  | requestCloudLogs => cases h
  | callback result => cases h
  | addLocalLogs => cases h
  | addBetaLogs => cases h
  | addLocalLog text => cases h

/-! The texts handed to the sink -/

/-- A run of calls of `addLocalLog`: one message per text, and the latch set
when there was a text. -/
theorem foldl_addLocalLog (env : Env) (texts : List QString) :
    ∀ self : Changelogs,
      (texts.foldl (Changelogs.addLocalLog env) self).sent
        = self.sent
          ++ texts.map (fun t => env.ParseEntities { text := t, entities := [] })
      ∧ (texts.foldl (Changelogs.addLocalLog env) self)._addedSomeLocal
        = (self._addedSomeLocal || !texts.isEmpty) := by
  induction texts with
  | nil => intro self; simp
  | cons t rest ih =>
    intro self
    obtain ⟨h1, h2⟩ := ih (Changelogs.addLocalLog env self t)
    rw [List.foldl_cons, h1, h2, Changelogs.addLocalLog_sent, Changelogs.addLocalLog_latch]
    simp

theorem betaMessages_texts (env : Env) (v : Int) (table : List (Int × QString)) :
    Changelogs.betaMessages env v table
      = ((table.filter (fun e => decide (v < e.1))).map
          (fun e => Changelogs.betaLog e.1 e.2)).map
          (fun t => env.ParseEntities { text := t, entities := [] }) := by
  unfold Changelogs.betaMessages
  rw [List.map_map]
  rfl

/-- What an operation appends to the sink is the parse of a list of texts. -/
theorem Op.run_sent_texts (env : Env) (self : Changelogs) (op : Op) :
    ∃ texts : List QString, (op.run env self).sent
      = self.sent ++ texts.map (fun t => env.ParseEntities { text := t, entities := [] }) := by
  have hbeta : ∀ c : Changelogs, ∃ texts : List QString, (Changelogs.addBetaLogs env c).sent
      = c.sent ++ texts.map (fun t => env.ParseEntities { text := t, entities := [] }) :=
    fun c => ⟨_, by rw [Changelogs.addBetaLogs_sent, betaMessages_texts]⟩
  have hkotato : ∀ c : Changelogs, ∃ texts : List QString, (Changelogs.addKotatoLogs env c).sent
      = c.sent ++ texts.map (fun t => env.ParseEntities { text := t, entities := [] }) := by
    intro c
    rw [Changelogs.addKotatoLogs_sent]
    by_cases h : c._addedSomeLocal = true
    · exact ⟨[], by rw [if_pos h]; rfl⟩
    · exact ⟨[_], by rw [if_neg h]; rfl⟩
  have hlocal : ∀ c : Changelogs, ∃ texts : List QString, (Changelogs.addLocalLogs env c).sent
      = c.sent ++ texts.map (fun t => env.ParseEntities { text := t, entities := [] }) := by
    intro c
    rw [Changelogs.addLocalLogs_sent]
    have hpart : ∃ t1 : List QString, Changelogs.betaPart env c._oldVersion
        = t1.map (fun t => env.ParseEntities { text := t, entities := [] }) := by
      unfold Changelogs.betaPart
      split
      · exact ⟨_, betaMessages_texts env _ _⟩
      · exact ⟨[], rfl⟩
    obtain ⟨t1, ht1⟩ := hpart
    rw [ht1]
    split
    · exact ⟨t1, by simp⟩
    · exact ⟨t1 ++ [_], by rw [List.map_append, List.append_assoc]; rfl⟩
  cases op with
  | addKotatoLogs => exact hkotato self
  | requestCloudLogs => exact ⟨[], (List.append_nil _).symm⟩
  | callback result =>
    show ∃ texts : List QString, (Changelogs.callback env self result).sent = _
    rw [Changelogs.callback_eq]
    split
    · obtain ⟨texts, ht⟩ := hlocal (Changelogs.classify (self.applyUpdates result) result).1
      exact ⟨texts, by rw [ht, Changelogs.classify_sent]; rfl⟩
    · exact ⟨[], (List.append_nil _).symm⟩
  | addLocalLogs => exact hlocal self
  | addBetaLogs => exact hbeta self
  | addLocalLog text => exact ⟨[text], Changelogs.addLocalLog_sent env self text⟩
  | chatsListChanged folder =>
    show ∃ texts : List QString, (Changelogs.chatsListChanged env self folder).sent = _
    unfold Changelogs.chatsListChanged
    split
    · exact hkotato self
    · exact ⟨[], (List.append_nil _).symm⟩

/-- The effect of an operation on the sink and on the latch is that of a run
of calls of `addLocalLog`. -/
theorem Op.run_texts (env : Env) (self : Changelogs) (op : Op) :
    ∃ texts : List QString,
      (op.run env self).sent
        = self.sent ++ texts.map (fun t => env.ParseEntities { text := t, entities := [] })
      ∧ (op.run env self)._addedSomeLocal = (self._addedSomeLocal || !texts.isEmpty) := by
  obtain ⟨texts, ht⟩ := Op.run_sent_texts env self op
  obtain ⟨added, ha, hl⟩ := Op.run_added env self op
  have he : added = texts.map (fun t => env.ParseEntities { text := t, entities := [] }) :=
    List.append_cancel_left (ha.symm.trans ht)
  refine ⟨texts, ht, ?_⟩
  rw [hl, he]
  cases texts <;> rfl

/-- Over a sequence of operations, what is appended to the sink is the parse
of a list of texts, and the latch is set at the end exactly when it was set
at the start or there was a text. -/
theorem runOps_texts (env : Env) (ops : List Op) :
    ∀ self : Changelogs, ∃ texts : List QString,
      (runOps env self ops).sent
        = self.sent ++ texts.map (fun t => env.ParseEntities { text := t, entities := [] })
      ∧ (runOps env self ops)._addedSomeLocal = (self._addedSomeLocal || !texts.isEmpty) := by
  induction ops with
  | nil => intro self; exact ⟨[], (List.append_nil _).symm, by simp [runOps]⟩
  | cons op ops ih =>
    intro self
    obtain ⟨t1, h1, h2⟩ := Op.run_texts env self op
    obtain ⟨t2, h3, h4⟩ := ih (op.run env self)
    refine ⟨t1 ++ t2, ?_, ?_⟩
    · show (runOps env (op.run env self) ops).sent = _
      rw [h3, h1, List.map_append, List.append_assoc]
    · show (runOps env (op.run env self) ops)._addedSomeLocal = _
      rw [h4, h2]
      cases self._addedSomeLocal <;> cases t1 <;> cases t2 <;> rfl

/-! The sink invariant -/

/-- C11: for a notifier made by the constructor and taken through any
sequence of operations, what reached the sink since the construction is the
parse of a list of texts, one message per text, and `_addedSomeLocal` is set
exactly when there is such a message.  A call of `addLocalLog` hands exactly
one message to the sink and sets the flag; the effect of every operation on
the sink and on the flag is that of a run of calls of `addLocalLog`; and no
operation resets the flag. -/
theorem sink_invariant (env : Env) (session : Session) (oldVersion oldKotatoVersion : Int)
    (ops : List Op) :
    (∃ texts : List QString,
      (runOps env (Changelogs.ctor session oldVersion oldKotatoVersion)
          ops)._session.serviceNotifications
        = session.serviceNotifications
          ++ texts.map (fun t => env.ParseEntities { text := t, entities := [] })
      ∧ ((runOps env (Changelogs.ctor session oldVersion oldKotatoVersion)
          ops)._addedSomeLocal = true ↔ texts ≠ []))
    ∧ ((runOps env (Changelogs.ctor session oldVersion oldKotatoVersion)
          ops)._addedSomeLocal = true
      ↔ session.serviceNotifications.length
        < (runOps env (Changelogs.ctor session oldVersion oldKotatoVersion)
            ops)._session.serviceNotifications.length)
    ∧ (∀ (self : Changelogs) (text : QString),
        (Changelogs.addLocalLog env self text)._session.serviceNotifications
          = self._session.serviceNotifications
            ++ [env.ParseEntities { text := text, entities := [] }]
        ∧ (Changelogs.addLocalLog env self text)._addedSomeLocal = true)
    ∧ (∀ (self : Changelogs) (op : Op), ∃ texts : List QString,
        (op.run env self)._session.serviceNotifications
          = (texts.foldl (Changelogs.addLocalLog env) self)._session.serviceNotifications
        ∧ (op.run env self)._addedSomeLocal
          = (texts.foldl (Changelogs.addLocalLog env) self)._addedSomeLocal)
    ∧ (∀ (self : Changelogs) (op : Op),
        self._addedSomeLocal = true → (op.run env self)._addedSomeLocal = true) := by
  obtain ⟨texts, h1, h2⟩ :=
    runOps_texts env ops (Changelogs.ctor session oldVersion oldKotatoVersion)
  have hc : (Changelogs.ctor session oldVersion oldKotatoVersion).sent
      = session.serviceNotifications := rfl
  have hl : (Changelogs.ctor session oldVersion oldKotatoVersion)._addedSomeLocal
      = false := rfl
  simp only [Changelogs.sent] at h1 hc
  rw [hc] at h1
  rw [hl] at h2
  have hiff : (runOps env (Changelogs.ctor session oldVersion oldKotatoVersion)
      ops)._addedSomeLocal = true ↔ texts ≠ [] := by
    rw [h2]
    cases texts <;> simp
  refine ⟨⟨texts, h1, hiff⟩, ?_, ?_, ?_, ?_⟩
  · rw [hiff, h1, List.length_append, List.length_map]
    constructor
    · intro hne
      have : 0 < texts.length := List.length_pos.mpr hne
      omega
    · intro hlt
      exact List.length_pos.mp (by omega)
  · intro self text
    exact ⟨Changelogs.addLocalLog_sent env self text, rfl⟩
  · intro self op
    obtain ⟨ts, ht1, ht2⟩ := Op.run_texts env self op
    obtain ⟨hf1, hf2⟩ := foldl_addLocalLog env ts self
    simp only [Changelogs.sent] at ht1 hf1
    exact ⟨ts, by rw [ht1, hf1], by rw [ht2, hf2]⟩
  · intro self op h
    exact Op.run_latch env self op h

/-! The callback forwards the reply -/

/-- C13: for every server result, the callback records the result with
`applyUpdates` exactly once.  It is `addLocalLogs`, run once on the object
after the forwarding (and after the diagnostic line of a bad shape), when the
result classifies as empty, and nothing more than the forwarding when it does
not; the forwarding sends no message and keeps `_addedSomeLocal`. -/
theorem callback_forwards (env : Env) (self : Changelogs) (result : MTPUpdates) :
    (Changelogs.callback env self result)._session.appliedUpdates
      = self._session.appliedUpdates ++ [result]
    ∧ Changelogs.callback env self result
      = (if (Changelogs.classify self result).2 = true
          then Changelogs.addLocalLogs env
            (Changelogs.classify (self.applyUpdates result) result).1
          else self.applyUpdates result)
    ∧ (self.applyUpdates result)._session.serviceNotifications
      = self._session.serviceNotifications
    ∧ (self.applyUpdates result)._addedSomeLocal = self._addedSomeLocal
    ∧ (Changelogs.classify (self.applyUpdates result) result).1._session.serviceNotifications
      = self._session.serviceNotifications
    ∧ (Changelogs.classify (self.applyUpdates result) result).1._addedSomeLocal
      = self._addedSomeLocal
    ∧ (Changelogs.callback env self result)._session.serviceNotifications
      = self._session.serviceNotifications
        ++ (if (Changelogs.classify self result).2 = true
            then (Changelogs.addLocalLogs env self)._session.serviceNotifications.drop
              self._session.serviceNotifications.length
            else []) := by
  have heq := Changelogs.callback_eq env self result
  have hs : (Changelogs.classify (self.applyUpdates result) result).1.sent = self.sent :=
    Changelogs.classify_sent _ _
  have hl : (Changelogs.classify (self.applyUpdates result) result).1._addedSomeLocal
      = self._addedSomeLocal := Changelogs.classify_latch _ _
  have hv : (Changelogs.classify (self.applyUpdates result) result).1._oldVersion
      = self._oldVersion := by cases result <;> rfl
  simp only [Changelogs.sent] at hs
  refine ⟨?_, heq, rfl, rfl, hs, hl, ?_⟩
  · rw [heq]
    split
    · rw [Changelogs.addLocalLogs_frame (fun c => c._session.appliedUpdates)
        (fun _ _ _ => rfl), Changelogs.classify_appliedUpdates]
      rfl
    · rfl
  · rw [heq]
    split
    · have h1 := Changelogs.addLocalLogs_sent env
        (Changelogs.classify (self.applyUpdates result) result).1
      have h2 := Changelogs.addLocalLogs_sent env self
      simp only [Changelogs.sent] at h1 h2
      rw [h1, h2, hs, hl, hv, List.append_assoc, List.drop_left]
    · rw [List.append_nil]; rfl

/-! Both entry paths unsubscribe -/

/-- C14: `addKotatoLogs` and `requestCloudLogs` leave the subscription
destroyed in every case, whatever the latch.  An event that carries a folder,
and an event that comes when the subscription is destroyed, change nothing.
Over any sequence of operations the handler of the subscription runs at most
once, and after `requestCloudLogs` it does not run at all. -/
theorem both_paths_unsubscribe (env : Env) (self : Changelogs) (ops : List Op) :
    (Changelogs.addKotatoLogs env self)._chatsSubscription = false
    ∧ (Changelogs.requestCloudLogs self)._chatsSubscription = false
    ∧ (∀ folder : Nat, Changelogs.chatsListChanged env self (some folder) = self)
    ∧ (∀ folder : Option Nat,
        Changelogs.chatsListChanged env { self with _chatsSubscription := false } folder
          = { self with _chatsSubscription := false })
    ∧ handlerRuns env self ops ≤ 1
    ∧ handlerRuns env (Changelogs.requestCloudLogs self) ops = 0
    ∧ handlerRuns env (Changelogs.addKotatoLogs env self) ops = 0 := by
  refine ⟨Changelogs.addKotatoLogs_subscription env self, rfl, ?_, ?_, ?_,
    handlerRuns_unsubscribed env ops _ rfl,
    handlerRuns_unsubscribed env ops _ (Changelogs.addKotatoLogs_subscription env self)⟩
  · intro folder
    simp [Changelogs.chatsListChanged]
  · intro folder
    simp [Changelogs.chatsListChanged]
  · induction ops generalizing self with
    | nil => exact Nat.zero_le _
    | cons op ops ih =>
      rw [handlerRuns]
      by_cases hr : op.runsHandler self = true
      · rw [if_pos hr, Op.run_of_runsHandler env self op hr,
          handlerRuns_unsubscribed env ops _
            (Changelogs.addKotatoLogs_subscription env self)]
      · rw [if_neg hr, Nat.zero_add]
        exact ih _

/-! The factory and the storage -/

/-- C15: `Changelogs::Create` leaves the storage as one call of
`clearOldVersion` leaves it, whether it returns an object or not: the stored
old version is cleared and the stored old Kotatogram version is the one that
was there.  The check and the object use the old version read before the
clear. -/
theorem Create_clears (env : Env) (storage : LocalStorage) (session : Session) :
    (Changelogs.Create env storage session).1 = storage.clearOldVersion
    ∧ (Changelogs.Create env storage session).1.oldVersion = 0
    ∧ (Changelogs.Create env storage session).1.oldKotatoVersion = storage.oldKotatoVersion
    ∧ (Changelogs.Create env storage session).2
      = (if storage.oldVersion ≠ 0 ∧ storage.oldKotatoVersion < env.AppKotatoVersion
          then some (Changelogs.ctor session storage.oldVersion storage.oldKotatoVersion)
          else none)
    ∧ ((Changelogs.Create env storage session).2.isSome = true
      ↔ storage.oldVersion ≠ 0 ∧ storage.oldKotatoVersion < env.AppKotatoVersion) := by
  refine ⟨rfl, rfl, rfl, rfl, ?_⟩
  have hc : (Changelogs.Create env storage session).2
      = if storage.oldVersion ≠ 0 ∧ storage.oldKotatoVersion < env.AppKotatoVersion
        then some (Changelogs.ctor session storage.oldVersion storage.oldKotatoVersion)
        else none := rfl
  rw [hc]
  by_cases h : storage.oldVersion ≠ 0 ∧ storage.oldKotatoVersion < env.AppKotatoVersion
  · rw [if_pos h]
    exact ⟨fun _ => h, fun _ => rfl⟩
  · rw [if_neg h]
    exact ⟨fun hs => Bool.noConfusion hs, fun hp => absurd hp h⟩

/-! A build that is neither beta nor alpha -/

/-- C16: in a build that is neither beta nor alpha, `addLocalLogs` sends no
beta entry, whatever the old version: it sends the generic message alone when
the latch is clear and nothing when it is set.  For a notifier made by the
constructor and taken through any sequence of operations, that is: the
generic message alone when nothing was sent since the construction, and
nothing otherwise. -/
theorem addLocalLogs_stable_build (env : Env) (self : Changelogs)
    (hbeta : env.AppKotatoBetaVersion = false) (halpha : env.cAlphaVersion = 0) :
    (Changelogs.addLocalLogs env self)._session.serviceNotifications
      = self._session.serviceNotifications
        ++ (if self._addedSomeLocal = true then [] else [Changelogs.genericMessage env])
    ∧ (∀ (session : Session) (oldVersion oldKotatoVersion : Int) (ops : List Op),
        (Changelogs.addLocalLogs env
            (runOps env (Changelogs.ctor session oldVersion oldKotatoVersion)
              ops))._session.serviceNotifications
          = (runOps env (Changelogs.ctor session oldVersion oldKotatoVersion)
              ops)._session.serviceNotifications
            ++ (if (runOps env (Changelogs.ctor session oldVersion oldKotatoVersion)
                  ops)._session.serviceNotifications = session.serviceNotifications
                then [Changelogs.genericMessage env] else [])) := by
  have hbuild : (env.AppKotatoBetaVersion || env.cAlphaVersion != 0) = false := by
    rw [hbeta, halpha]; rfl
  have key : ∀ c : Changelogs,
      (Changelogs.addLocalLogs env c)._session.serviceNotifications
        = c._session.serviceNotifications
          ++ (if c._addedSomeLocal = true then [] else [Changelogs.genericMessage env]) := by
    intro c
    have hs := Changelogs.addLocalLogs_sent env c
    simp only [Changelogs.sent, Changelogs.betaPart, hbuild, Bool.false_and, Bool.or_false,
      List.append_nil] at hs
    simpa using hs
  refine ⟨key self, ?_⟩
  intro session oldVersion oldKotatoVersion ops
  obtain ⟨added, h1, h2⟩ :=
    runOps_added env ops (Changelogs.ctor session oldVersion oldKotatoVersion)
  have hc : (Changelogs.ctor session oldVersion oldKotatoVersion).sent
      = session.serviceNotifications := rfl
  have hl : (Changelogs.ctor session oldVersion oldKotatoVersion)._addedSomeLocal
      = false := rfl
  simp only [Changelogs.sent] at h1 hc
  rw [key, h2, hl, h1, hc]
  cases added with
  | nil => simp
  | cons x xs => simp

/-- Witness of C16 in the build `demoStableEnv`, for a fresh notifier with the
old version 3002005, below every key of the table: the generic message alone
is sent. -/
theorem addLocalLogs_stable_build_witness :
    demoStableEnv.AppKotatoBetaVersion = false
    ∧ demoStableEnv.cAlphaVersion = 0
    ∧ (Changelogs.addLocalLogs demoStableEnv
        (Changelogs.ctor demoSession 3002005 0))._session.serviceNotifications
      = [Changelogs.genericMessage demoStableEnv] :=
  ⟨rfl, rfl,
    (addLocalLogs_stable_build demoStableEnv (Changelogs.ctor demoSession 3002005 0)
      rfl rfl).1⟩

end Core
